import Mathlib

/-!
Verification of the GLTF ModelBuilder (DiligentTools, AssetLoader/interface/GLTFBuilder.hpp).

The builder converts a parsed, index-referenced scene description into a flattened model:
an allocation pass (`AllocateNode`) reserves arena slots and index remappings for every
node reachable from the requested roots, a loading pass populates meshes (with a
deduplicating vertex-buffer packer and a merging index-buffer packer) and an optional
skin/animation pass resolves animation channels and skins against the flattened nodes.

The definitions below are a shallow embedding of that header.  C++ `float` values are
modelled as rationals, machine integers as `Nat`/`Int` with explicit `% 2 ^ w` where
overflow matters, `std::unordered_map` as an association list in insertion order (the
only operations used are `emplace`, `find` and `operator[]`, none of which depend on
bucket order), and pointers into the arenas as flattened indices (`Option Nat` where the
pointer can be null).
-/

set_option maxHeartbeats 1000000

namespace GLTFBuilder

/-- Component value types of accessors (the subset of Diligent VALUE_TYPE that matters
to the builder: unsigned index types plus representatives of every other kind). -/
inductive VALUE_TYPE where
  | VT_UINT8
  | VT_UINT16
  | VT_UINT32
  | VT_INT8
  | VT_INT16
  | VT_INT32
  | VT_FLOAT16
  | VT_FLOAT32
deriving DecidableEq, Repr

/-- Three-component vector; float components are modelled as rationals. -/
structure float3 where
  x : Rat := 0
  y : Rat := 0
  z : Rat := 0
deriving DecidableEq, Repr

instance : Inhabited float3 := ⟨{}⟩

/-- Modelled from the spec: componentwise minimum of two float3 values.  The overload of
std::min used at GLTFBuilder.hpp:310 lives in BasicMath.hpp, which is not part of the
analysed source; the spec describes the mesh box as "the componentwise min/max across
all its primitives' bounding boxes". -/
def min3 (a b : float3) : float3 :=
  ⟨min a.x b.x, min a.y b.y, min a.z b.z⟩

/-- Modelled from the spec: componentwise maximum of two float3 values (see `min3`). -/
def max3 (a b : float3) : float3 :=
  ⟨max a.x b.x, max a.y b.y, max a.z b.z⟩

/-- Axis-aligned bounding box. -/
structure BoundBox where
  Min : float3 := {}
  Max : float3 := {}
deriving DecidableEq, Repr

instance : Inhabited BoundBox := ⟨{}⟩

/-- Componentwise order on float3. -/
def le3 (a b : float3) : Prop :=
  a.x ≤ b.x ∧ a.y ≤ b.y ∧ a.z ≤ b.z

/-- A node of the parsed source model: children ids, mesh/camera/skin ids
(negative = absent). -/
structure GltfNode where
  children : List Int := []
  meshId : Int := -1
  cameraId : Int := -1
  skinId : Int := -1
deriving DecidableEq, Repr

instance : Inhabited GltfNode := ⟨{}⟩

/-- A source accessor, restricted to the queries the builder makes: component type,
element count, the integer element values (for index accessors) and declared min/max
(for position accessors). -/
structure GltfAccessor where
  componentType : VALUE_TYPE := .VT_FLOAT32
  count : Nat := 0
  intValues : List Nat := []
  minValues : float3 := {}
  maxValues : float3 := {}
deriving DecidableEq, Repr

instance : Inhabited GltfAccessor := ⟨{}⟩

/-- A source mesh primitive: attribute name → accessor id (GetAttribute returns null
for an absent name), index accessor id and material id (negative = absent). -/
structure GltfPrimitive where
  attributes : List (String × Int) := []
  indicesId : Int := -1
  materialId : Int := -1
deriving DecidableEq, Repr

/-- A source mesh. -/
structure GltfMesh where
  name : String := ""
  primitives : List GltfPrimitive := []
deriving DecidableEq, Repr

instance : Inhabited GltfMesh := ⟨{}⟩

/-- Animation channel path kinds. -/
inductive PATH_TYPE where
  | translation
  | rotation
  | scale
  | weights
deriving DecidableEq, Repr

/-- A source animation channel. -/
structure GltfAnimChannel where
  pathType : PATH_TYPE := .translation
  samplerId : Int := -1
  targetNodeId : Int := -1
deriving DecidableEq, Repr

/-- A source animation sampler; only the input timestamps matter to the claims. -/
structure GltfAnimSampler where
  inputs : List Rat := []
deriving DecidableEq, Repr

/-- A source animation. -/
structure GltfAnimation where
  name : String := ""
  samplers : List GltfAnimSampler := []
  channels : List GltfAnimChannel := []
deriving DecidableEq, Repr

instance : Inhabited GltfAnimation := ⟨{}⟩

/-- A source skin. -/
structure GltfSkin where
  name : String := ""
  skeletonId : Int := -1
  jointIds : List Int := []
deriving DecidableEq, Repr

/-- The parsed source model, as seen through the GltfModelType query interface. -/
structure GltfModel where
  nodes : List GltfNode := []
  meshes : List GltfMesh := []
  accessors : List GltfAccessor := []
  animations : List GltfAnimation := []
  skins : List GltfSkin := []

/-- GetNode: fetch a node by source id.  An id outside the node array is undefined
behaviour in C++; it is modelled by the default (empty) node. -/
def GltfModel.getNode (g : GltfModel) (i : Int) : GltfNode :=
  if 0 ≤ i then g.nodes.getD i.toNat {} else {}

/-- GetAccessor by source id (out of range modelled by the default accessor). -/
def GltfModel.getAccessor (g : GltfModel) (i : Int) : GltfAccessor :=
  if 0 ≤ i then g.accessors.getD i.toNat {} else {}

/-- GetMesh by source id (out of range modelled by the default mesh). -/
def GltfModel.getMesh (g : GltfModel) (i : Int) : GltfMesh :=
  if 0 ≤ i then g.meshes.getD i.toNat {} else {}

/-- Association-list lookup, the model of unordered_map find. -/
def alookup {α β : Type} [DecidableEq α] : List (α × β) → α → Option β
  | [], _ => none
  | (k, v) :: rest, i => if i = k then some v else alookup rest i

/-- unordered_map::emplace: insert only if the key is absent; returns whether the
insertion happened.  Entries are kept in insertion order. -/
def emplace {α : Type} [DecidableEq α] (m : List (α × Nat)) (k : α) (v : Nat) :
    List (α × Nat) × Bool :=
  match alookup m k with
  | some _ => (m, false)
  | none => (m ++ [(k, v)], true)

/-- State of the builder during the allocation pass: the three index remappings and the
sizes of the node/mesh/camera arenas (the arenas hold only default-constructed entries
at this point, so their sizes characterize them). -/
structure AllocState where
  nodeIndexRemapping : List (Int × Nat) := []
  meshIndexRemapping : List (Int × Nat) := []
  cameraIndexRemapping : List (Int × Nat) := []
  linearNodes : Nat := 0
  meshes : Nat := 0
  cameras : Nat := 0
deriving DecidableEq, Repr

/-- The mesh reservation block of ModelBuilder::AllocateNode (GLTFBuilder.hpp:194-200):
a nonnegative mesh id is remapped to the next mesh slot (if new) and the mesh arena
grows; a negative id is ignored. -/
def allocMeshSlot (meshId : Int) (s : AllocState) : AllocState :=
  if 0 ≤ meshId then
    if (emplace s.meshIndexRemapping meshId s.meshes).2 then
      { s with meshIndexRemapping := (emplace s.meshIndexRemapping meshId s.meshes).1,
               meshes := s.meshes + 1 }
    else { s with meshIndexRemapping := (emplace s.meshIndexRemapping meshId s.meshes).1 }
  else s

/-- The camera reservation block of ModelBuilder::AllocateNode
(GLTFBuilder.hpp:202-208), the exact analogue of `allocMeshSlot`. -/
def allocCameraSlot (cameraId : Int) (s : AllocState) : AllocState :=
  if 0 ≤ cameraId then
    if (emplace s.cameraIndexRemapping cameraId s.cameras).2 then
      { s with cameraIndexRemapping := (emplace s.cameraIndexRemapping cameraId s.cameras).1,
               cameras := s.cameras + 1 }
    else { s with cameraIndexRemapping := (emplace s.cameraIndexRemapping cameraId s.cameras).1 }
  else s

/-- The mesh and camera reservation part of ModelBuilder::AllocateNode
(GLTFBuilder.hpp:194-208): the two blocks run in sequence on the visited node. -/
def allocMeshCamera (g : GltfModel) (i : Int) (s : AllocState) : AllocState :=
  allocCameraSlot (g.getNode i).cameraId (allocMeshSlot (g.getNode i).meshId s)

mutual

/-- ModelBuilder::AllocateNode (GLTFBuilder.hpp:177-209).  The node id is remapped to
the next flattened index and a node arena slot is reserved; if it was already remapped
the call returns at once.  Then the children are allocated recursively and the node's
mesh and camera are reserved.  The C++ recursion is modelled with explicit fuel; any
fuel of at least (number of source nodes + 1) is enough (`allocPass` lemmas below). -/
def allocateNode (g : GltfModel) : Nat → AllocState → Int → AllocState
  | 0, s, _ => s
  | fuel + 1, s, i =>
    match alookup s.nodeIndexRemapping i with
    | some _ => s
    | none =>
      let s1 : AllocState := { s with
        nodeIndexRemapping := s.nodeIndexRemapping ++ [(i, s.linearNodes)],
        linearNodes := s.linearNodes + 1 }
      allocMeshCamera g i (allocateNodeList g fuel s1 (g.getNode i).children)
termination_by fuel _ _ => (fuel, 0)

/-- AllocateNode over a list of node ids (the children loop, and the root loop of
ModelBuilder::Execute). -/
def allocateNodeList (g : GltfModel) : Nat → AllocState → List Int → AllocState
  | _, s, [] => s
  | fuel, s, c :: rest => allocateNodeList g fuel (allocateNode g fuel s c) rest
termination_by fuel _ cs => (fuel, cs.length + 1)

end

/-- The allocation pass of ModelBuilder::Execute: AllocateNode over every requested
root id, starting from the empty builder state. -/
def allocPass (g : GltfModel) (fuel : Nat) (roots : List Int) : AllocState :=
  allocateNodeList g fuel {} roots

/-- A source node id that actually denotes a node of the model. -/
def validId (g : GltfModel) (i : Int) : Prop :=
  0 ≤ i ∧ i < (g.nodes.length : Int)

instance (g : GltfModel) (i : Int) : Decidable (validId g i) := by
  unfold validId; infer_instance

/-- Reachability from a node id through children links of the source model. -/
inductive Reach (g : GltfModel) : Int → Int → Prop where
  | refl (i : Int) : Reach g i i
  | step {i j k : Int} : Reach g i j → k ∈ (g.getNode j).children → Reach g i k

/-- Every child id stored in the source model denotes a node of the model. -/
def WellFormed (g : GltfModel) : Prop :=
  ∀ n ∈ g.nodes, ∀ c ∈ n.children, validId g c

instance (g : GltfModel) : Decidable (WellFormed g) := by
  unfold WellFormed; infer_instance

/-- Fixed layout of the destination model, set up before the build: the declared vertex
attribute names, the element stride of every destination vertex buffer, the index
element size (m_Model.Buffers.back().ElementStride, 2 or 4) and the material count. -/
structure ModelLayout where
  vertexAttributeNames : List String := []
  bufferStrides : List Nat := []
  indexSize : Nat := 4
  numMaterials : Nat := 0
deriving DecidableEq, Repr

/-- A built primitive (GLTF::Primitive). -/
structure Primitive where
  indexStart : Nat
  indexCount : Nat
  vertexCount : Nat
  materialId : Nat
  BB : BoundBox
deriving DecidableEq, Repr

/-- A built mesh (GLTF::Mesh).  A freshly allocated arena slot holds the default. -/
structure Mesh where
  name : String := ""
  primitives : List Primitive := []
  BB : BoundBox := {}
deriving DecidableEq, Repr

instance : Inhabited Mesh := ⟨{}⟩

/-- State of the builder during mesh loading.  `vertexDataSizes` is the byte size of
every m_VertexData buffer (the vertex bytes themselves are filled by WriteGltfData,
whose definition lives in GLTFBuilder.cpp and which never moves an offset).
`conversionLog` and `primLog` are instrumentation with no influence on anything:
they record each key for which ConvertVertexData was executed, and the
(key, vertex-start) pair of every processed primitive. -/
structure BuildState where
  meshIndexRemapping : List (Int × Nat) := []
  loadedMeshes : List Nat := []
  meshes : List Mesh := []
  indexData : List Nat := []
  vertexDataSizes : List Nat := []
  convertedBuffers : List (List Int × List Nat) := []
  conversionLog : List (List Int) := []
  primLog : List (List Int × Nat) := []
deriving DecidableEq, Repr

/-- The builder state right after the allocation pass: the mesh remapping is filled,
the mesh arena holds default meshes and every vertex buffer is empty. -/
def initBuildState (layout : ModelLayout) (meshRemap : List (Int × Nat))
    (numMeshes : Nat) : BuildState :=
  { meshIndexRemapping := meshRemap,
    meshes := List.replicate numMeshes {},
    vertexDataSizes := List.replicate layout.bufferStrides.length 0 }

/-- ModelBuilder::ConvertVertexData (GLTFBuilder.hpp:456-492), restricted to its state
effects: the current size of every destination vertex buffer becomes the offset list
for this key, and every buffer grows by VertexCount elements of its stride.  The
per-attribute WriteGltfData calls only fill the freshly reserved bytes. -/
def convertVertexData (strides : List Nat) (vertexCount : Nat) (sizes : List Nat) :
    List Nat × List Nat :=
  (sizes, (sizes.zip strides).map fun p => p.1 + vertexCount * p.2)

/-- Store the offsets computed for a key in the memo map (the write through the
reference obtained from m_ConvertedBuffers[Key]). -/
def memoStore (m : List (List Int × List Nat)) (k : List Int) (v : List Nat) :
    List (List Int × List Nat) :=
  match alookup m k with
  | some _ => m.map fun e => if e.1 = k then (k, v) else e
  | none => m ++ [(k, v)]

/-- The deduplication key of a primitive: one accessor id per declared vertex
attribute, -1 when the primitive lacks the attribute (LoadMesh, GLTFBuilder.hpp:253-262). -/
def buildPrimKey (attribNames : List String) (prim : GltfPrimitive) : List Int :=
  attribNames.map fun name => (alookup prim.attributes name).getD (-1)

/-- ModelBuilder::WriteIndexData (GLTFBuilder.hpp:494-509): each destination element is
the source index plus the base vertex, computed in 32-bit unsigned arithmetic
(SrcInd + BaseVertex after integral promotion) and then cast to the destination width
(static_cast<DstType>).  `src i` is the i-th strided source read, a value of the
source's unsigned component type. -/
def writeIndexData (numElements : Nat) (src : Nat → Nat) (base : Nat) (dstSize : Nat) :
    List Nat :=
  (List.range numElements).map fun i => ((src i + base) % 2 ^ 32) % 2 ^ (8 * dstSize)

/-- Little-endian byte encoding of one destination index element of dstSize bytes. -/
def encodeLE (dstSize : Nat) (v : Nat) : List Nat :=
  (List.range dstSize).map fun k => v / 2 ^ (8 * k) % 256

/-- Whether a component type is one of the supported unsigned index types
(the VT_UINT32/VT_UINT16/VT_UINT8 cases of the switch in ConvertIndexData). -/
def isUintIndexType : VALUE_TYPE → Bool
  | .VT_UINT8 => true
  | .VT_UINT16 => true
  | .VT_UINT32 => true
  | _ => false

/-- ModelBuilder::ConvertIndexData (GLTFBuilder.hpp:511-560): the index buffer is grown
by Count * IndexSize bytes, then the switch on the source component type either writes
Count converted elements over the reserved bytes (modelled as appending their
little-endian encoding, which is what writing every reserved byte amounts to) and
returns Count, or — for an unsupported type — leaves the reserved zero bytes in place
and returns 0. -/
def convertIndexData (indexSize : Nat) (acc : GltfAccessor) (base : Nat)
    (indexData : List Nat) : Nat × List Nat :=
  let count := acc.count
  if isUintIndexType acc.componentType then
    (count,
      indexData ++
        List.flatten ((writeIndexData count (fun i => acc.intValues.getD i 0) base indexSize).map
          (encodeLE indexSize)))
  else
    (0, indexData ++ List.replicate (count * indexSize) 0)

/-- One iteration of the primitive loop of ModelBuilder::LoadMesh
(GLTFBuilder.hpp:238-301): compute the index start, build the deduplication key, read
the position accessor's declared bounds and count, look up or create the memoized
converted vertex range (m_ConvertedBuffers[Key] default-constructs an empty entry when
the key is absent and ConvertVertexData runs exactly when Data.Offsets is empty),
convert the indices if present and emit the Primitive. -/
def processPrimitive (layout : ModelLayout) (g : GltfModel) (s : BuildState)
    (prim : GltfPrimitive) : BuildState × Primitive :=
  let indexStart := s.indexData.length / layout.indexSize
  let key := buildPrimKey layout.vertexAttributeNames prim
  let posAcc := g.getAccessor ((alookup prim.attributes "POSITION").getD (-1))
  let posMin := posAcc.minValues
  let posMax := posAcc.maxValues
  let vertexCount := posAcc.count
  let r :=
    match alookup s.convertedBuffers key with
    | some offs =>
      if offs.isEmpty then
        let c := convertVertexData layout.bufferStrides vertexCount s.vertexDataSizes
        (c.1, { s with vertexDataSizes := c.2,
                       convertedBuffers := memoStore s.convertedBuffers key c.1,
                       conversionLog := s.conversionLog ++ [key] })
      else (offs, s)
    | none =>
      let c := convertVertexData layout.bufferStrides vertexCount s.vertexDataSizes
      (c.1, { s with vertexDataSizes := c.2,
                     convertedBuffers := memoStore s.convertedBuffers key c.1,
                     conversionLog := s.conversionLog ++ [key] })
  let offsets := r.1
  let s1 := r.2
  let vertexStart := offsets.getD 0 0 / layout.bufferStrides.getD 0 0
  let s2 := { s1 with primLog := s1.primLog ++ [(key, vertexStart)] }
  let ri :=
    if 0 ≤ prim.indicesId then
      convertIndexData layout.indexSize (g.getAccessor prim.indicesId) vertexStart s2.indexData
    else (0, s2.indexData)
  ({ s2 with indexData := ri.2 },
   { indexStart := indexStart,
     indexCount := ri.1,
     vertexCount := vertexCount,
     materialId := if 0 ≤ prim.materialId then prim.materialId.toNat
                   else (layout.numMaterials + (2 ^ 32 - 1)) % 2 ^ 32,
     BB := { Min := posMin, Max := posMax } })

/-- The primitive loop of LoadMesh, threading the builder state and collecting the
built primitives in order. -/
def processPrimList (layout : ModelLayout) (g : GltfModel) :
    BuildState → List GltfPrimitive → BuildState × List Primitive
  | s, [] => (s, [])
  | s, p :: rest =>
    let r1 := processPrimitive layout g s p
    let r2 := processPrimList layout g r1.1 rest
    (r2.1, r1.2 :: r2.2)

/-- The mesh bounding box computation of LoadMesh (GLTFBuilder.hpp:303-313): the box is
left unchanged when there are no primitives, otherwise it is the running componentwise
min/max starting from the first primitive's box. -/
def computeMeshBB (old : BoundBox) : List Primitive → BoundBox
  | [] => old
  | p :: rest =>
    rest.foldl (fun bb q => { Min := min3 bb.Min q.BB.Min, Max := max3 bb.Max q.BB.Max }) p.BB

/-- ModelBuilder::LoadMesh (GLTFBuilder.hpp:211-319).  The returned value is the
flattened mesh slot (the C++ function returns a pointer into m_Model.Meshes; none
models nullptr).  A remapping miss trips a debug-only assertion in C++ and is modelled
as returning null with no state change.  An already loaded mesh (shared by several
nodes) is returned as is; otherwise the mesh is marked loaded, its primitives are
processed and the mesh slot is filled. -/
def loadMesh (layout : ModelLayout) (g : GltfModel) (s : BuildState)
    (gltfMeshIndex : Int) : BuildState × Option Nat :=
  if gltfMeshIndex < 0 then (s, none)
  else
    match alookup s.meshIndexRemapping gltfMeshIndex with
    | none => (s, none)
    | some loadedMeshId =>
      if loadedMeshId ∈ s.loadedMeshes then (s, some loadedMeshId)
      else
        let s1 := { s with loadedMeshes := s.loadedMeshes ++ [loadedMeshId] }
        let gltfMesh := g.getMesh gltfMeshIndex
        let r := processPrimList layout g s1 gltfMesh.primitives
        let oldMesh := r.1.meshes.getD loadedMeshId {}
        let newMesh : Mesh := { name := gltfMesh.name, primitives := r.2,
                                BB := computeMeshBB oldMesh.BB r.2 }
        ({ r.1 with meshes := r.1.meshes.set loadedMeshId newMesh }, some loadedMeshId)

/-- A built animation channel: path kind, resolved target node (the flattened index the
stored Node* points at) and the sampler index. -/
structure AnimationChannel where
  pathType : PATH_TYPE
  node : Nat
  samplerIndex : Nat
deriving DecidableEq, Repr

/-- A built animation sampler (the outputs, a pure copy of source floats promoted to
four components, are omitted). -/
structure AnimationSampler where
  inputs : List Rat := []
deriving DecidableEq, Repr

/-- A built animation.  `stop` models the End field (End is a Lean keyword-like name). -/
structure Animation where
  name : String := ""
  start : Rat := 0
  stop : Rat := 0
  samplers : List AnimationSampler := []
  channels : List AnimationChannel := []
deriving DecidableEq, Repr

instance : Inhabited Animation := ⟨{}⟩

/-- The Start/End accumulation of ModelBuilder::LoadAnimations (GLTFBuilder.hpp:634-644):
every sampler input below Start replaces Start, every input above End replaces End.
startInit/endInit are the initial values of Animation.Start/End.  Modelled from the
spec: the Animation field defaults live in GLTFLoader.hpp, which is not part of the
analysed source; the spec derives the time range as "min/max over all sampler input
timestamps", i.e. the defaults bound every timestamp from above resp. below. -/
def animRange (samplers : List (List Rat)) (startInit endInit : Rat) : Rat × Rat :=
  samplers.foldl
    (fun se inputs =>
      inputs.foldl
        (fun se t => (if t < se.1 then t else se.1, if se.2 < t then t else se.2)) se)
    (startInit, endInit)

/-- The channel loop of ModelBuilder::LoadAnimations (GLTFBuilder.hpp:687-713):
a weights-path channel, a negative sampler id, a negative target node id or a target
node the remapping cannot resolve is skipped; every other channel is emitted with the
resolved node and its sampler index. -/
def buildChannels (nodeIndexRemapping : List (Int × Nat)) :
    List GltfAnimChannel → List AnimationChannel
  | [] => []
  | ch :: rest =>
    if ch.pathType = .weights then buildChannels nodeIndexRemapping rest
    else if ch.samplerId < 0 then buildChannels nodeIndexRemapping rest
    else if ch.targetNodeId < 0 then buildChannels nodeIndexRemapping rest
    else
      match alookup nodeIndexRemapping ch.targetNodeId with
      | none => buildChannels nodeIndexRemapping rest
      | some n =>
        { pathType := ch.pathType, node := n, samplerIndex := ch.samplerId.toNat } ::
          buildChannels nodeIndexRemapping rest

/-- ModelBuilder::LoadAnimations (GLTFBuilder.hpp:599-715): one Animation per source
animation, named by its ordinal when unnamed, with sampler inputs copied, Start/End
accumulated over all sampler inputs and channels built against the node remapping. -/
def loadAnimations (g : GltfModel) (remap : List (Int × Nat)) (startInit endInit : Rat) :
    List Animation :=
  (List.range g.animations.length).map fun i =>
    let ga := g.animations.getD i {}
    let se := animRange (ga.samplers.map (fun sam => sam.inputs)) startInit endInit
    { name := if ga.name = "" then toString i else ga.name,
      start := se.1, stop := se.2,
      samplers := ga.samplers.map fun gs => { inputs := gs.inputs },
      channels := buildChannels remap ga.channels }

/-- A built skin, restricted to node resolution (the inverse bind matrices are a raw
memcpy of source bytes). -/
structure Skin where
  name : String := ""
  skeletonRoot : Option Nat := none
  joints : List Nat := []
deriving DecidableEq, Repr

/-- ModelBuilder::LoadSkins (GLTFBuilder.hpp:562-597): resolve the skeleton root and the
joints through the node remapping; unresolvable joints are dropped. -/
def loadSkins (g : GltfModel) (remap : List (Int × Nat)) : List Skin :=
  g.skins.map fun gs =>
    { name := gs.name,
      skeletonRoot := if (0 : Int) ≤ gs.skeletonId then alookup remap gs.skeletonId else none,
      joints := gs.jointIds.filterMap (alookup remap) }

/-- The skin-related fields of a built node: the skin the node points at (pSkin) and
its skin transform slot (SkinTransformsIndex); none = unset. -/
structure NodeSkinInfo where
  pSkin : Option Nat := none
  skinTransformsIndex : Option Nat := none
deriving DecidableEq, Repr

/-- The skin-assignment loop of ModelBuilder::LoadAnimationAndSkin
(GLTFBuilder.hpp:740-757): nodes paired with their recorded skin ids, in node order;
a nonnegative skin id assigns the skin and the next skin-transform slot. -/
def assignSkins : List (NodeSkinInfo × Int) → Nat → List NodeSkinInfo × Nat
  | [], count => ([], count)
  | (n, skinId) :: rest, count =>
    if 0 ≤ skinId then
      let r := assignSkins rest (count + 1)
      ({ n with pSkin := some skinId.toNat, skinTransformsIndex := some count } :: r.1, r.2)
    else
      let r := assignSkins rest count
      (n :: r.1, r.2)

/-- The skin/animation related state of the model. -/
structure SkinAnimState where
  skins : List Skin := []
  animations : List Animation := []
  nodes : List NodeSkinInfo := []
  skinTransformsCount : Nat := 0
deriving DecidableEq, Repr

/-- Whether any declared vertex attribute name indicates skinning influence data:
strncmp(Name, "WEIGHTS", 7) == 0 or strncmp(Name, "JOINTS", 6) == 0, i.e. the name
starts with WEIGHTS or with JOINTS (strncmp up to the pattern length including its
terminator is exactly a prefix test).  The test is stated on character lists. -/
def usesAnimation (attribNames : List String) : Bool :=
  attribNames.any fun n => "WEIGHTS".data.isPrefixOf n.data || "JOINTS".data.isPrefixOf n.data

/-- ModelBuilder::LoadAnimationAndSkin (GLTFBuilder.hpp:717-760): returns false and does
nothing when no vertex attribute is a skinning attribute; otherwise loads animations
and skins and assigns every node with a nonnegative recorded skin id its skin and a
sequential skin-transform slot.  nodeSkinIds is the m_NodeIdToSkinId entry of each
node, in node order. -/
def loadAnimationAndSkin (g : GltfModel) (attribNames : List String)
    (remap : List (Int × Nat)) (nodeSkinIds : List Int) (startInit endInit : Rat)
    (s : SkinAnimState) : Bool × SkinAnimState :=
  if usesAnimation attribNames then
    let anims := loadAnimations g remap startInit endInit
    let skins := loadSkins g remap
    let r := assignSkins (s.nodes.zip nodeSkinIds) s.skinTransformsCount
    (true, { skins := skins, animations := anims, nodes := r.1, skinTransformsCount := r.2 })
  else (false, s)

/-! ### Association list lemmas -/

theorem alookup_eq_none_iff {α β : Type} [DecidableEq α] (m : List (α × β)) (k : α) :
    alookup m k = none ↔ k ∉ m.map Prod.fst := by
  induction m with
  | nil => simp [alookup]
  | cons e rest ih =>
    obtain ⟨a, b⟩ := e
    by_cases h : k = a
    · subst h; simp [alookup]
    · simp [alookup, h, ih]

theorem alookup_isSome_iff {α β : Type} [DecidableEq α] (m : List (α × β)) (k : α) :
    (alookup m k).isSome = true ↔ k ∈ m.map Prod.fst := by
  induction m with
  | nil => simp [alookup]
  | cons e rest ih =>
    obtain ⟨a, b⟩ := e
    by_cases h : k = a
    · subst h; simp [alookup]
    · simp [alookup, h, ih]

theorem alookup_mem {α β : Type} [DecidableEq α] {m : List (α × β)} {k : α} {v : β}
    (h : alookup m k = some v) : (k, v) ∈ m := by
  induction m with
  | nil => simp [alookup] at h
  | cons e rest ih =>
    obtain ⟨a, b⟩ := e
    by_cases hk : k = a
    · subst hk
      simp [alookup] at h
      simp [h]
    · simp only [alookup, if_neg hk] at h
      exact List.mem_cons_of_mem _ (ih h)

theorem alookup_append_some {α β : Type} [DecidableEq α] {m1 : List (α × β)}
    (m2 : List (α × β)) {k : α} {v : β} (h : alookup m1 k = some v) :
    alookup (m1 ++ m2) k = some v := by
  induction m1 with
  | nil => simp [alookup] at h
  | cons e rest ih =>
    obtain ⟨a, b⟩ := e
    by_cases hk : k = a
    · subst hk; simp only [alookup, if_pos rfl] at h ⊢; exact h
    · simp only [List.cons_append, alookup, if_neg hk] at h ⊢; exact ih h

theorem alookup_append_none {α β : Type} [DecidableEq α] {m1 : List (α × β)}
    (m2 : List (α × β)) {k : α} (h : alookup m1 k = none) :
    alookup (m1 ++ m2) k = alookup m2 k := by
  induction m1 with
  | nil => simp
  | cons e rest ih =>
    obtain ⟨a, b⟩ := e
    by_cases hk : k = a
    · subst hk; simp only [alookup, if_pos rfl] at h; exact absurd h (by simp)
    · simp only [List.cons_append, alookup, if_neg hk] at h ⊢; exact ih h

/-! ### Folded minimum / maximum lemmas -/

theorem foldlMin_le_init {α : Type} [LinearOrder α] (l : List α) (a : α) :
    l.foldl min a ≤ a := by
  induction l generalizing a with
  | nil => exact le_refl a
  | cons y ys ih => exact le_trans (ih (min a y)) (min_le_left a y)

theorem foldlMin_le_of_mem {α : Type} [LinearOrder α] (l : List α) (a : α) {x : α}
    (h : x ∈ l) : l.foldl min a ≤ x := by
  induction l generalizing a with
  | nil => cases h
  | cons y ys ih =>
    rcases List.mem_cons.mp h with rfl | h
    · exact le_trans (foldlMin_le_init ys (min a x)) (min_le_right a x)
    · exact ih (min a y) h

theorem foldlMin_eq_init_or_mem {α : Type} [LinearOrder α] (l : List α) (a : α) :
    l.foldl min a = a ∨ l.foldl min a ∈ l := by
  induction l generalizing a with
  | nil => exact Or.inl rfl
  | cons y ys ih =>
    rcases ih (min a y) with h | h
    · rcases min_choice a y with hm | hm
      · exact Or.inl (by rw [List.foldl_cons, h, hm])
      · exact Or.inr (by rw [List.foldl_cons, h, hm]; exact List.mem_cons_self y ys)
    · exact Or.inr (List.mem_cons_of_mem y h)

theorem init_le_foldlMax {α : Type} [LinearOrder α] (l : List α) (a : α) :
    a ≤ l.foldl max a := by
  induction l generalizing a with
  | nil => exact le_refl a
  | cons y ys ih => exact le_trans (le_max_left a y) (ih (max a y))

theorem mem_le_foldlMax {α : Type} [LinearOrder α] (l : List α) (a : α) {x : α}
    (h : x ∈ l) : x ≤ l.foldl max a := by
  induction l generalizing a with
  | nil => cases h
  | cons y ys ih =>
    rcases List.mem_cons.mp h with rfl | h
    · exact le_trans (le_max_right a x) (init_le_foldlMax ys (max a x))
    · exact ih (max a y) h

theorem foldlMax_eq_init_or_mem {α : Type} [LinearOrder α] (l : List α) (a : α) :
    l.foldl max a = a ∨ l.foldl max a ∈ l := by
  induction l generalizing a with
  | nil => exact Or.inl rfl
  | cons y ys ih =>
    rcases ih (max a y) with h | h
    · rcases max_choice a y with hm | hm
      · exact Or.inl (by rw [List.foldl_cons, h, hm])
      · exact Or.inr (by rw [List.foldl_cons, h, hm]; exact List.mem_cons_self y ys)
    · exact Or.inr (List.mem_cons_of_mem y h)

/-! ### C4 — mesh bounding box -/

/-- The bounding-box fold of LoadMesh, componentwise: each corner coordinate is a
folded min (resp. max) over the corresponding primitive box coordinates. -/
theorem bbFold_components (rest : List Primitive) (bb : BoundBox) :
    rest.foldl (fun bb q => { Min := min3 bb.Min q.BB.Min, Max := max3 bb.Max q.BB.Max }) bb
      = { Min := ⟨(rest.map fun q => q.BB.Min.x).foldl min bb.Min.x,
                  (rest.map fun q => q.BB.Min.y).foldl min bb.Min.y,
                  (rest.map fun q => q.BB.Min.z).foldl min bb.Min.z⟩,
          Max := ⟨(rest.map fun q => q.BB.Max.x).foldl max bb.Max.x,
                  (rest.map fun q => q.BB.Max.y).foldl max bb.Max.y,
                  (rest.map fun q => q.BB.Max.z).foldl max bb.Max.z⟩ } := by
  induction rest generalizing bb with
  | nil => rfl
  | cons q qs ih => rw [List.foldl_cons, ih]; rfl

/-- A coordinate of the folded minimum is attained by the first primitive or by a
primitive of the rest. -/
theorem attainMin {α : Type} [LinearOrder α] (p : Primitive) (rest : List Primitive)
    (f : Primitive → α) : ∃ q ∈ p :: rest, (rest.map f).foldl min (f p) = f q := by
  rcases foldlMin_eq_init_or_mem (rest.map f) (f p) with h | h
  · exact ⟨p, List.mem_cons_self p rest, h⟩
  · obtain ⟨q, hq, hqe⟩ := List.mem_map.mp h
    exact ⟨q, List.mem_cons_of_mem p hq, hqe.symm⟩

/-- A coordinate of the folded maximum is attained by the first primitive or by a
primitive of the rest. -/
theorem attainMax {α : Type} [LinearOrder α] (p : Primitive) (rest : List Primitive)
    (f : Primitive → α) : ∃ q ∈ p :: rest, (rest.map f).foldl max (f p) = f q := by
  rcases foldlMax_eq_init_or_mem (rest.map f) (f p) with h | h
  · exact ⟨p, List.mem_cons_self p rest, h⟩
  · obtain ⟨q, hq, hqe⟩ := List.mem_map.mp h
    exact ⟨q, List.mem_cons_of_mem p hq, hqe.symm⟩

/-- C4: after the bounding-box computation of LoadMesh, for a mesh with at least one
primitive the mesh box lower corner is a componentwise lower bound of every primitive
box lower corner and each of its components is attained by some primitive (i.e. it is
the componentwise minimum), dually the upper corner is the componentwise maximum; for
a mesh with no primitives the box is left at its previous (default) value. -/
theorem C4_mesh_bounding_box (old : BoundBox) (p : Primitive) (rest : List Primitive) :
    (∀ q ∈ p :: rest, le3 (computeMeshBB old (p :: rest)).Min q.BB.Min
        ∧ le3 q.BB.Max (computeMeshBB old (p :: rest)).Max)
    ∧ ((∃ q ∈ p :: rest, (computeMeshBB old (p :: rest)).Min.x = q.BB.Min.x)
       ∧ (∃ q ∈ p :: rest, (computeMeshBB old (p :: rest)).Min.y = q.BB.Min.y)
       ∧ (∃ q ∈ p :: rest, (computeMeshBB old (p :: rest)).Min.z = q.BB.Min.z)
       ∧ (∃ q ∈ p :: rest, (computeMeshBB old (p :: rest)).Max.x = q.BB.Max.x)
       ∧ (∃ q ∈ p :: rest, (computeMeshBB old (p :: rest)).Max.y = q.BB.Max.y)
       ∧ (∃ q ∈ p :: rest, (computeMeshBB old (p :: rest)).Max.z = q.BB.Max.z))
    ∧ computeMeshBB old [] = old := by
  have hRw : computeMeshBB old (p :: rest)
      = { Min := ⟨(rest.map fun q => q.BB.Min.x).foldl min p.BB.Min.x,
                  (rest.map fun q => q.BB.Min.y).foldl min p.BB.Min.y,
                  (rest.map fun q => q.BB.Min.z).foldl min p.BB.Min.z⟩,
          Max := ⟨(rest.map fun q => q.BB.Max.x).foldl max p.BB.Max.x,
                  (rest.map fun q => q.BB.Max.y).foldl max p.BB.Max.y,
                  (rest.map fun q => q.BB.Max.z).foldl max p.BB.Max.z⟩ } := by
    unfold computeMeshBB
    exact bbFold_components rest p.BB
  refine ⟨?_, ⟨?_, ?_, ?_, ?_, ?_, ?_⟩, rfl⟩
  · intro q hq
    rcases List.mem_cons.mp hq with rfl | hq
    · exact ⟨⟨by rw [hRw]; exact foldlMin_le_init _ _,
              by rw [hRw]; exact foldlMin_le_init _ _,
              by rw [hRw]; exact foldlMin_le_init _ _⟩,
             ⟨by rw [hRw]; exact init_le_foldlMax _ _,
              by rw [hRw]; exact init_le_foldlMax _ _,
              by rw [hRw]; exact init_le_foldlMax _ _⟩⟩
    · exact ⟨⟨by rw [hRw]; exact foldlMin_le_of_mem _ _ (List.mem_map_of_mem _ hq),
              by rw [hRw]; exact foldlMin_le_of_mem _ _ (List.mem_map_of_mem _ hq),
              by rw [hRw]; exact foldlMin_le_of_mem _ _ (List.mem_map_of_mem _ hq)⟩,
             ⟨by rw [hRw]; exact mem_le_foldlMax _ _ (List.mem_map_of_mem _ hq),
              by rw [hRw]; exact mem_le_foldlMax _ _ (List.mem_map_of_mem _ hq),
              by rw [hRw]; exact mem_le_foldlMax _ _ (List.mem_map_of_mem _ hq)⟩⟩
  · rw [hRw]; exact attainMin p rest (fun q => q.BB.Min.x)
  · rw [hRw]; exact attainMin p rest (fun q => q.BB.Min.y)
  · rw [hRw]; exact attainMin p rest (fun q => q.BB.Min.z)
  · rw [hRw]; exact attainMax p rest (fun q => q.BB.Max.x)
  · rw [hRw]; exact attainMax p rest (fun q => q.BB.Max.y)
  · rw [hRw]; exact attainMax p rest (fun q => q.BB.Max.z)

/-- C3, counterexample: with the 16-bit destination width, source index 65535 and base
vertex 1, the element written by the index packer is 0, not 65535 + 1 = 65536: the sum
is truncated to the destination width, so it does not always equal
source index + base vertex exactly. -/
theorem C3_index_sum_counterexample :
    writeIndexData 1 (fun _ => 65535) 1 2 = [0] ∧ (65535 + 1 : Nat) ≠ 0 := by
  constructor
  · rfl
  · decide

/-- C3, amended: every element written by the index packer equals
(source index + base vertex) reduced modulo 2^(8 * destination element size) — for
both destination sizes (2 and 4 bytes) and every source read — and therefore equals
source index + base vertex exactly whenever that sum fits the destination width. -/
theorem C3_writeIndexData_amended (numElements : Nat) (src : Nat → Nat) (base : Nat)
    (dstSize : Nat) (hdst : dstSize = 2 ∨ dstSize = 4) (i : Nat)
    (hi : i < numElements) :
    (writeIndexData numElements src base dstSize).getD i 0
        = (src i + base) % 2 ^ (8 * dstSize)
    ∧ (src i + base < 2 ^ (8 * dstSize) →
        (writeIndexData numElements src base dstSize).getD i 0 = src i + base) := by
  have hdvd : (2 : Nat) ^ (8 * dstSize) ∣ 2 ^ 32 := by
    rcases hdst with h | h <;> subst h <;> exact pow_dvd_pow 2 (by norm_num)
  have hget : (writeIndexData numElements src base dstSize).getD i 0
      = ((src i + base) % 2 ^ 32) % 2 ^ (8 * dstSize) := by
    unfold writeIndexData
    rw [List.getD_eq_getElem?_getD, List.getElem?_map, List.getElem?_range hi]
    rfl
  rw [hget, Nat.mod_mod_of_dvd _ hdvd]
  exact ⟨rfl, fun hfit => Nat.mod_eq_of_lt hfit⟩

theorem C3_writeIndexData_amended_witness :
    ((writeIndexData 3 (fun i => i + 10) 5 2).getD 1 0 = ((1 + 10) + 5) % 2 ^ (8 * 2)
    ∧ ((1 + 10) + 5 < 2 ^ (8 * 2) →
        (writeIndexData 3 (fun i => i + 10) 5 2).getD 1 0 = (1 + 10) + 5)) :=
  C3_writeIndexData_amended 3 (fun i => i + 10) 5 2 (Or.inl rfl) 1 (by decide)

/-! ### C8 — animation time range -/

theorem ifLt_eq_min (a t : Rat) : (if t < a then t else a) = min a t := by
  rcases le_or_lt a t with h | h
  · rw [if_neg (not_lt.mpr h), min_eq_left h]
  · rw [if_pos h, min_eq_right (le_of_lt h)]

theorem ifGt_eq_max (a t : Rat) : (if a < t then t else a) = max a t := by
  rcases le_or_lt t a with h | h
  · rw [if_neg (not_lt.mpr h), max_eq_left h]
  · rw [if_pos h, max_eq_right (le_of_lt h)]

/-- The per-sampler Start/End accumulation is a pair of independent min/max folds. -/
theorem animFold_pair (l : List Rat) (se : Rat × Rat) :
    l.foldl (fun se t => (if t < se.1 then t else se.1, if se.2 < t then t else se.2)) se
      = (l.foldl min se.1, l.foldl max se.2) := by
  induction l generalizing se with
  | nil => rfl
  | cons t ts ih =>
    rw [List.foldl_cons, ih, List.foldl_cons, List.foldl_cons]
    rw [show (if t < se.1 then t else se.1, if se.2 < t then t else se.2).1
          = min se.1 t from ifLt_eq_min se.1 t,
        show (if t < se.1 then t else se.1, if se.2 < t then t else se.2).2
          = max se.2 t from ifGt_eq_max se.2 t]

/-- The whole animation time-range accumulation is a min fold and a max fold over the
concatenation of all samplers' inputs. -/
theorem animRange_eq_flatten (samplers : List (List Rat)) (s0 e0 : Rat) :
    animRange samplers s0 e0
      = (samplers.flatten.foldl min s0, samplers.flatten.foldl max e0) := by
  induction samplers generalizing s0 e0 with
  | nil => rfl
  | cons l ls ih =>
    have h1 : animRange (l :: ls) s0 e0
        = animRange ls (l.foldl min s0) (l.foldl max e0) := by
      unfold animRange
      rw [List.foldl_cons, animFold_pair l (s0, e0)]
    rw [h1, ih, List.flatten_cons, List.foldl_append, List.foldl_append]

/-- C8: when the initial Start bounds every timestamp from above and the initial End
bounds every timestamp from below (as the defaults in the source do), the accumulated
Start is a lower bound of all sampler input timestamps and is attained by one of them
(it is their minimum) and dually End is their maximum — for every animation with at
least one timestamp. -/
theorem C8_animRange_minmax (samplers : List (List Rat)) (startInit endInit : Rat)
    (hne : samplers.flatten ≠ [])
    (hbound : ∀ t ∈ samplers.flatten, t ≤ startInit ∧ endInit ≤ t) :
    (∀ t ∈ samplers.flatten, (animRange samplers startInit endInit).1 ≤ t
        ∧ t ≤ (animRange samplers startInit endInit).2)
    ∧ (∃ t ∈ samplers.flatten, (animRange samplers startInit endInit).1 = t)
    ∧ (∃ t ∈ samplers.flatten, (animRange samplers startInit endInit).2 = t) := by
  rw [animRange_eq_flatten]
  refine ⟨?_, ?_, ?_⟩
  · intro t ht
    exact ⟨foldlMin_le_of_mem _ _ ht, mem_le_foldlMax _ _ ht⟩
  · rcases foldlMin_eq_init_or_mem samplers.flatten startInit with h | h
    · obtain ⟨t0, ht0⟩ := List.exists_mem_of_ne_nil samplers.flatten hne
      refine ⟨t0, ht0, le_antisymm (foldlMin_le_of_mem _ _ ht0) ?_⟩
      rw [h]
      exact (hbound t0 ht0).1
    · exact ⟨_, h, rfl⟩
  · rcases foldlMax_eq_init_or_mem samplers.flatten endInit with h | h
    · obtain ⟨t0, ht0⟩ := List.exists_mem_of_ne_nil samplers.flatten hne
      refine ⟨t0, ht0, le_antisymm ?_ (mem_le_foldlMax _ _ ht0)⟩
      rw [h]
      exact (hbound t0 ht0).2
    · exact ⟨_, h, rfl⟩

theorem C8_animRange_minmax_witness :
    ((∀ t ∈ [[(0 : Rat), 3 / 2]].flatten, (animRange [[(0 : Rat), 3 / 2]] 2 (-1)).1 ≤ t
        ∧ t ≤ (animRange [[(0 : Rat), 3 / 2]] 2 (-1)).2)
    ∧ (∃ t ∈ [[(0 : Rat), 3 / 2]].flatten, (animRange [[(0 : Rat), 3 / 2]] 2 (-1)).1 = t)
    ∧ (∃ t ∈ [[(0 : Rat), 3 / 2]].flatten, (animRange [[(0 : Rat), 3 / 2]] 2 (-1)).2 = t)) :=
  C8_animRange_minmax [[(0 : Rat), 3 / 2]] 2 (-1) (by simp)
    (by intro t ht; simp at ht; rcases ht with rfl | rfl <;> norm_num)

/-! ### C10 — index buffer growth on the unsupported-type path -/

/-- C10: when the source index component type is not one of the supported unsigned
types, ConvertIndexData returns an index count of 0, yet the shared index buffer has
already been grown by count * destination-element-size bytes (the resize happens before
the type dispatch), so this error path is not atomic with respect to the buffer. -/
theorem C10_convertIndexData_unsupported (indexSize : Nat) (acc : GltfAccessor)
    (base : Nat) (indexData : List Nat)
    (h : isUintIndexType acc.componentType = false) :
    (convertIndexData indexSize acc base indexData).1 = 0
    ∧ (convertIndexData indexSize acc base indexData).2.length
        = indexData.length + acc.count * indexSize := by
  unfold convertIndexData
  simp [h]

theorem C10_convertIndexData_unsupported_witness :
    ((convertIndexData 2 { componentType := .VT_FLOAT32, count := 3 } 0 []).1 = 0
    ∧ (convertIndexData 2 { componentType := .VT_FLOAT32, count := 3 } 0 []).2.length
        = ([] : List Nat).length + 3 * 2) :=
  C10_convertIndexData_unsupported 2 { componentType := .VT_FLOAT32, count := 3 } 0 [] rfl

/-! ### C9 — negative ids in the allocation pass -/

/-- C9, counterexample: AllocateNode called on the negative node id -1 (nothing in the
source guards node ids) creates a node remapping entry keyed by -1 and reserves a node
arena slot, so a negative node id is not treated as absent. -/
theorem C9_negative_node_counterexample :
    (allocateNode {} 1 {} (-1)).nodeIndexRemapping = [(-1, 0)]
    ∧ (allocateNode {} 1 {} (-1)).linearNodes = 1 := by
  constructor <;>
    simp [allocateNode, allocateNodeList, allocMeshCamera, allocMeshSlot, allocCameraSlot, alookup, GltfModel.getNode]

/-- C9, amended: a negative mesh id and a negative camera id are treated as absent by
the allocation pass (no arena slot, no remapping entry, state unchanged), and LoadMesh
returns null with no state change for a negative mesh id; a negative node id, however,
is allocated a node slot and a remapping entry like any other node id. -/
theorem C9_negative_ids_amended (g : GltfModel) (i : Int) (s : AllocState)
    (hm : (g.getNode i).meshId < 0) (hc : (g.getNode i).cameraId < 0)
    (layout : ModelLayout) (g2 : GltfModel) (bs : BuildState) (j : Int) (hj : j < 0) :
    allocMeshCamera g i s = s ∧ loadMesh layout g2 bs j = (bs, none) := by
  constructor
  · have h1 : ¬ ((0 : Int) ≤ (g.getNode i).meshId) := not_le.mpr hm
    have h2 : ¬ ((0 : Int) ≤ (g.getNode i).cameraId) := not_le.mpr hc
    simp [allocMeshCamera, allocMeshSlot, allocCameraSlot, h1, h2]
  · simp [loadMesh, hj]

theorem C9_negative_ids_amended_witness :
    (allocMeshCamera {} 5 {} = ({} : AllocState)
    ∧ loadMesh {} {} {} (-3) = (({} : BuildState), none)) :=
  C9_negative_ids_amended {} 5 {} (by decide) (by decide) {} {} {} (-3) (by decide)

/-! ### C1 — the allocation pass -/

/-- The source node ids present in the node index remapping. -/
def nodeKeys (s : AllocState) : List Int :=
  s.nodeIndexRemapping.map Prod.fst

/-- How many remapped node ids denote actual nodes of the source model. -/
def validCard (g : GltfModel) (s : AllocState) : Nat :=
  ((nodeKeys s).filter fun k => decide (validId g k)).length

/-- Structural invariant of the allocation state: in each of the three remappings the
keys are distinct and the values are exactly 0, 1, 2, … in insertion order, and each
arena size equals its remapping size. -/
def SeqInv (s : AllocState) : Prop :=
  (s.nodeIndexRemapping.map Prod.fst).Nodup
  ∧ s.nodeIndexRemapping.map Prod.snd = List.range s.nodeIndexRemapping.length
  ∧ s.linearNodes = s.nodeIndexRemapping.length
  ∧ (s.meshIndexRemapping.map Prod.fst).Nodup
  ∧ s.meshIndexRemapping.map Prod.snd = List.range s.meshIndexRemapping.length
  ∧ s.meshes = s.meshIndexRemapping.length
  ∧ (s.cameraIndexRemapping.map Prod.fst).Nodup
  ∧ s.cameraIndexRemapping.map Prod.snd = List.range s.cameraIndexRemapping.length
  ∧ s.cameras = s.cameraIndexRemapping.length

/-- An id that denotes no node reads the default node (no children, no mesh/camera). -/
theorem getNode_invalid (g : GltfModel) (i : Int) (h : ¬ validId g i) :
    g.getNode i = ({} : GltfNode) := by
  unfold GltfModel.getNode
  unfold validId at h
  push_neg at h
  by_cases h0 : (0 : Int) ≤ i
  · rw [if_pos h0]
    have hge := h h0
    have hlen : g.nodes.length ≤ i.toNat := by omega
    exact List.getD_eq_default _ _ hlen
  · rw [if_neg h0]

/-- A valid id reads an actual node of the source model. -/
theorem getNode_mem (g : GltfModel) (i : Int) (h : validId g i) :
    g.getNode i ∈ g.nodes := by
  unfold GltfModel.getNode
  rw [if_pos h.1]
  have hlt : i.toNat < g.nodes.length := by
    have h2 := h.2
    have h1 := h.1
    omega
  rw [List.getD_eq_getElem _ _ hlt]
  exact List.getElem_mem hlt

/-- Reachability is transitive. -/
theorem Reach_trans {g : GltfModel} {i j k : Int} (h1 : Reach g i j)
    (h2 : Reach g j k) : Reach g i k := by
  induction h2 with
  | refl => exact h1
  | step _ hc ih => exact Reach.step ih hc

/-- In a well-formed model every node reachable from a valid id is valid. -/
theorem Reach_valid {g : GltfModel} (hwf : WellFormed g) {i j : Int}
    (hvalid : validId g i) (h : Reach g i j) : validId g j := by
  induction h with
  | refl => exact hvalid
  | step _ hc ih => exact hwf _ (getNode_mem g _ ih) _ hc

/-- emplace with the next sequential value preserves distinct keys and the
0,1,2,… value sequence; the map grows by one exactly when the insertion happened. -/
theorem emplace_preserve (m : List (Int × Nat)) (k : Int)
    (hnodup : (m.map Prod.fst).Nodup) (hseq : m.map Prod.snd = List.range m.length) :
    ((emplace m k m.length).1.map Prod.fst).Nodup
    ∧ (emplace m k m.length).1.map Prod.snd = List.range (emplace m k m.length).1.length
    ∧ (emplace m k m.length).1.length
        = (if (emplace m k m.length).2 then m.length + 1 else m.length) := by
  unfold emplace
  rcases hlook : alookup m k with _ | v
  · have hk : k ∉ m.map Prod.fst := (alookup_eq_none_iff m k).mp hlook
    refine ⟨?_, ?_, ?_⟩
    · rw [List.map_append]
      rw [List.nodup_append]
      refine ⟨hnodup, List.nodup_singleton k, ?_⟩
      intro a ha hb
      simp at hb
      subst hb
      exact hk ha
    · rw [List.map_append, hseq, List.length_append]
      simp [List.range_succ]
    · simp
  · exact ⟨hnodup, hseq, by simp⟩

/-- The mesh block never touches the node or camera fields. -/
theorem allocMeshSlot_fields (meshId : Int) (s : AllocState) :
    (allocMeshSlot meshId s).nodeIndexRemapping = s.nodeIndexRemapping
    ∧ (allocMeshSlot meshId s).linearNodes = s.linearNodes
    ∧ (allocMeshSlot meshId s).cameraIndexRemapping = s.cameraIndexRemapping
    ∧ (allocMeshSlot meshId s).cameras = s.cameras := by
  unfold allocMeshSlot
  split
  · split <;> exact ⟨rfl, rfl, rfl, rfl⟩
  · exact ⟨rfl, rfl, rfl, rfl⟩

/-- The camera block never touches the node or mesh fields. -/
theorem allocCameraSlot_fields (cameraId : Int) (s : AllocState) :
    (allocCameraSlot cameraId s).nodeIndexRemapping = s.nodeIndexRemapping
    ∧ (allocCameraSlot cameraId s).linearNodes = s.linearNodes
    ∧ (allocCameraSlot cameraId s).meshIndexRemapping = s.meshIndexRemapping
    ∧ (allocCameraSlot cameraId s).meshes = s.meshes := by
  unfold allocCameraSlot
  split
  · split <;> exact ⟨rfl, rfl, rfl, rfl⟩
  · exact ⟨rfl, rfl, rfl, rfl⟩

/-- The mesh/camera reservation of a node never touches the node remapping or arena. -/
theorem allocMeshCamera_nodeFields (g : GltfModel) (i : Int) (s : AllocState) :
    (allocMeshCamera g i s).nodeIndexRemapping = s.nodeIndexRemapping
    ∧ (allocMeshCamera g i s).linearNodes = s.linearNodes := by
  unfold allocMeshCamera
  have h1 := allocMeshSlot_fields (g.getNode i).meshId s
  have h2 := allocCameraSlot_fields (g.getNode i).cameraId
    (allocMeshSlot (g.getNode i).meshId s)
  exact ⟨h2.1.trans h1.1, h2.2.1.trans h1.2.1⟩

/-- The mesh block preserves the structural invariant. -/
theorem allocMeshSlot_SeqInv (meshId : Int) (s : AllocState) (h : SeqInv s) :
    SeqInv (allocMeshSlot meshId s) := by
  obtain ⟨hn1, hn2, hn3, hm1, hm2, hm3, hc1, hc2, hc3⟩ := h
  unfold allocMeshSlot
  by_cases h0 : (0 : Int) ≤ meshId
  · rw [if_pos h0, hm3]
    have hpre := emplace_preserve s.meshIndexRemapping meshId hm1 hm2
    rcases hins : (emplace s.meshIndexRemapping meshId s.meshIndexRemapping.length).2 with _ | _
    · simp only [hins, Bool.false_eq_true, if_false] at hpre ⊢
      exact ⟨hn1, hn2, hn3, hpre.1, hpre.2.1, hpre.2.2.symm, hc1, hc2, hc3⟩
    · simp only [hins, if_true] at hpre ⊢
      exact ⟨hn1, hn2, hn3, hpre.1, hpre.2.1, hpre.2.2.symm, hc1, hc2, hc3⟩
  · rw [if_neg h0]
    exact ⟨hn1, hn2, hn3, hm1, hm2, hm3, hc1, hc2, hc3⟩

/-- The camera block preserves the structural invariant. -/
theorem allocCameraSlot_SeqInv (cameraId : Int) (s : AllocState) (h : SeqInv s) :
    SeqInv (allocCameraSlot cameraId s) := by
  obtain ⟨hn1, hn2, hn3, hm1, hm2, hm3, hc1, hc2, hc3⟩ := h
  unfold allocCameraSlot
  by_cases h0 : (0 : Int) ≤ cameraId
  · rw [if_pos h0, hc3]
    have hpre := emplace_preserve s.cameraIndexRemapping cameraId hc1 hc2
    rcases hins : (emplace s.cameraIndexRemapping cameraId s.cameraIndexRemapping.length).2 with _ | _
    · simp only [hins, Bool.false_eq_true, if_false] at hpre ⊢
      exact ⟨hn1, hn2, hn3, hm1, hm2, hm3, hpre.1, hpre.2.1, hpre.2.2.symm⟩
    · simp only [hins, if_true] at hpre ⊢
      exact ⟨hn1, hn2, hn3, hm1, hm2, hm3, hpre.1, hpre.2.1, hpre.2.2.symm⟩
  · rw [if_neg h0]
    exact ⟨hn1, hn2, hn3, hm1, hm2, hm3, hc1, hc2, hc3⟩

/-- The whole mesh/camera reservation preserves the structural invariant. -/
theorem allocMeshCamera_SeqInv (g : GltfModel) (i : Int) (s : AllocState)
    (h : SeqInv s) : SeqInv (allocMeshCamera g i s) :=
  allocCameraSlot_SeqInv _ _ (allocMeshSlot_SeqInv _ _ h)

/-- Inserting a fresh node id with the next sequential index preserves the invariant. -/
theorem SeqInv_nodeInsert (s : AllocState) (i : Int) (h : SeqInv s)
    (hlook : alookup s.nodeIndexRemapping i = none) :
    SeqInv { s with nodeIndexRemapping := s.nodeIndexRemapping ++ [(i, s.linearNodes)],
                    linearNodes := s.linearNodes + 1 } := by
  obtain ⟨hn1, hn2, hn3, hrest⟩ := h
  have hk : i ∉ s.nodeIndexRemapping.map Prod.fst := (alookup_eq_none_iff _ i).mp hlook
  refine ⟨?_, ?_, ?_, hrest⟩
  · rw [List.map_append, List.nodup_append]
    refine ⟨hn1, List.nodup_singleton i, ?_⟩
    intro a ha hb
    simp at hb
    subst hb
    exact hk ha
  · rw [List.map_append, List.length_append, hn2, hn3]
    simp [List.range_succ]
  · simp [hn3]

/-! #### Unfolding equations of the allocation recursion -/

theorem allocateNode_zero (g : GltfModel) (s : AllocState) (i : Int) :
    allocateNode g 0 s i = s := by
  simp [allocateNode]

theorem allocateNode_succ_hit (g : GltfModel) (n : Nat) (s : AllocState) (i : Int)
    (v : Nat) (h : alookup s.nodeIndexRemapping i = some v) :
    allocateNode g (n + 1) s i = s := by
  simp [allocateNode, h]

theorem allocateNode_succ_miss (g : GltfModel) (n : Nat) (s : AllocState) (i : Int)
    (h : alookup s.nodeIndexRemapping i = none) :
    allocateNode g (n + 1) s i
      = allocMeshCamera g i (allocateNodeList g n
          { s with nodeIndexRemapping := s.nodeIndexRemapping ++ [(i, s.linearNodes)],
                   linearNodes := s.linearNodes + 1 } (g.getNode i).children) := by
  simp [allocateNode, h]

theorem allocateNodeList_nil (g : GltfModel) (fuel : Nat) (s : AllocState) :
    allocateNodeList g fuel s [] = s := by
  simp [allocateNodeList]

theorem allocateNodeList_cons (g : GltfModel) (fuel : Nat) (s : AllocState) (c : Int)
    (rest : List Int) :
    allocateNodeList g fuel s (c :: rest)
      = allocateNodeList g fuel (allocateNode g fuel s c) rest := by
  simp [allocateNodeList]

theorem nodeKeys_insert (s : AllocState) (i : Int) (v : Nat) :
    nodeKeys { s with nodeIndexRemapping := s.nodeIndexRemapping ++ [(i, v)],
                      linearNodes := s.linearNodes + 1 }
      = nodeKeys s ++ [i] := by
  unfold nodeKeys
  simp

/-! #### The allocation recursion only appends to the node remapping -/

theorem alloc_append (g : GltfModel) : ∀ fuel : Nat,
    (∀ (s : AllocState) (i : Int), ∃ t, (allocateNode g fuel s i).nodeIndexRemapping
        = s.nodeIndexRemapping ++ t)
    ∧ (∀ (cs : List Int) (s : AllocState), ∃ t,
        (allocateNodeList g fuel s cs).nodeIndexRemapping = s.nodeIndexRemapping ++ t) := by
  intro fuel
  induction fuel with
  | zero =>
    constructor
    · intro s i
      exact ⟨[], by simp [allocateNode_zero]⟩
    · intro cs
      induction cs with
      | nil => intro s; exact ⟨[], by simp [allocateNodeList_nil]⟩
      | cons c rest ih =>
        intro s
        rw [allocateNodeList_cons, allocateNode_zero]
        exact ih s
  | succ n ihn =>
    have hnode : ∀ (s : AllocState) (i : Int), ∃ t,
        (allocateNode g (n + 1) s i).nodeIndexRemapping = s.nodeIndexRemapping ++ t := by
      intro s i
      rcases hlook : alookup s.nodeIndexRemapping i with _ | v
      · rw [allocateNode_succ_miss g n s i hlook]
        obtain ⟨t1, ht1⟩ := ihn.2 (g.getNode i).children
          { s with nodeIndexRemapping := s.nodeIndexRemapping ++ [(i, s.linearNodes)],
                   linearNodes := s.linearNodes + 1 }
        rw [(allocMeshCamera_nodeFields g i _).1, ht1]
        exact ⟨[(i, s.linearNodes)] ++ t1, by simp⟩
      · rw [allocateNode_succ_hit g n s i v hlook]
        exact ⟨[], by simp⟩
    refine ⟨hnode, ?_⟩
    intro cs
    induction cs with
    | nil => intro s; exact ⟨[], by simp [allocateNodeList_nil]⟩
    | cons c rest ih =>
      intro s
      rw [allocateNodeList_cons]
      obtain ⟨t1, ht1⟩ := hnode s c
      obtain ⟨t2, ht2⟩ := ih (allocateNode g (n + 1) s c)
      exact ⟨t1 ++ t2, by rw [ht2, ht1, List.append_assoc]⟩

theorem allocateNode_keys_mono (g : GltfModel) (fuel : Nat) (s : AllocState) (i : Int)
    {j : Int} (h : j ∈ nodeKeys s) : j ∈ nodeKeys (allocateNode g fuel s i) := by
  obtain ⟨t, ht⟩ := (alloc_append g fuel).1 s i
  unfold nodeKeys at h ⊢
  rw [ht, List.map_append]
  exact List.mem_append_left _ h

theorem allocateNodeList_keys_mono (g : GltfModel) (fuel : Nat) (cs : List Int)
    (s : AllocState) {j : Int} (h : j ∈ nodeKeys s) :
    j ∈ nodeKeys (allocateNodeList g fuel s cs) := by
  obtain ⟨t, ht⟩ := (alloc_append g fuel).2 cs s
  unfold nodeKeys at h ⊢
  rw [ht, List.map_append]
  exact List.mem_append_left _ h

theorem validCard_append (g : GltfModel) {s s' : AllocState} (t : List (Int × Nat))
    (ht : s'.nodeIndexRemapping = s.nodeIndexRemapping ++ t) :
    validCard g s ≤ validCard g s' := by
  unfold validCard nodeKeys
  rw [ht, List.map_append, List.filter_append, List.length_append]
  omega

theorem allocateNode_validCard_mono (g : GltfModel) (fuel : Nat) (s : AllocState)
    (i : Int) : validCard g s ≤ validCard g (allocateNode g fuel s i) := by
  obtain ⟨t, ht⟩ := (alloc_append g fuel).1 s i
  exact validCard_append g t ht

theorem allocateNodeList_validCard_mono (g : GltfModel) (fuel : Nat) (cs : List Int)
    (s : AllocState) : validCard g s ≤ validCard g (allocateNodeList g fuel s cs) := by
  obtain ⟨t, ht⟩ := (alloc_append g fuel).2 cs s
  exact validCard_append g t ht

/-! #### The allocation recursion preserves the structural invariant -/

theorem alloc_SeqInv (g : GltfModel) : ∀ fuel : Nat,
    (∀ (s : AllocState) (i : Int), SeqInv s → SeqInv (allocateNode g fuel s i))
    ∧ (∀ (cs : List Int) (s : AllocState), SeqInv s →
        SeqInv (allocateNodeList g fuel s cs)) := by
  intro fuel
  induction fuel with
  | zero =>
    constructor
    · intro s i h
      rw [allocateNode_zero]
      exact h
    · intro cs
      induction cs with
      | nil => intro s h; rw [allocateNodeList_nil]; exact h
      | cons c rest ih =>
        intro s h
        rw [allocateNodeList_cons, allocateNode_zero]
        exact ih s h
  | succ n ihn =>
    have hnode : ∀ (s : AllocState) (i : Int), SeqInv s →
        SeqInv (allocateNode g (n + 1) s i) := by
      intro s i h
      rcases hlook : alookup s.nodeIndexRemapping i with _ | v
      · rw [allocateNode_succ_miss g n s i hlook]
        exact allocMeshCamera_SeqInv g i _ (ihn.2 _ _ (SeqInv_nodeInsert s i h hlook))
      · rw [allocateNode_succ_hit g n s i v hlook]
        exact h
    refine ⟨hnode, ?_⟩
    intro cs
    induction cs with
    | nil => intro s h; rw [allocateNodeList_nil]; exact h
    | cons c rest ih =>
      intro s h
      rw [allocateNodeList_cons]
      exact ih _ (hnode s c h)

/-! #### Soundness: every remapped node id was reachable -/

theorem alloc_sound (g : GltfModel) : ∀ fuel : Nat,
    (∀ (s : AllocState) (i j : Int), j ∈ nodeKeys (allocateNode g fuel s i) →
        j ∈ nodeKeys s ∨ Reach g i j)
    ∧ (∀ (cs : List Int) (s : AllocState) (j : Int),
        j ∈ nodeKeys (allocateNodeList g fuel s cs) →
        j ∈ nodeKeys s ∨ ∃ c ∈ cs, Reach g c j) := by
  intro fuel
  induction fuel with
  | zero =>
    constructor
    · intro s i j h
      rw [allocateNode_zero] at h
      exact Or.inl h
    · intro cs
      induction cs with
      | nil =>
        intro s j h
        rw [allocateNodeList_nil] at h
        exact Or.inl h
      | cons c rest ih =>
        intro s j h
        rw [allocateNodeList_cons, allocateNode_zero] at h
        rcases ih s j h with h | ⟨c', hc', hr⟩
        · exact Or.inl h
        · exact Or.inr ⟨c', List.mem_cons_of_mem c hc', hr⟩
  | succ n ihn =>
    have hnode : ∀ (s : AllocState) (i j : Int),
        j ∈ nodeKeys (allocateNode g (n + 1) s i) → j ∈ nodeKeys s ∨ Reach g i j := by
      intro s i j h
      rcases hlook : alookup s.nodeIndexRemapping i with _ | v
      · rw [allocateNode_succ_miss g n s i hlook] at h
        unfold nodeKeys at h
        rw [(allocMeshCamera_nodeFields g i _).1] at h
        rcases ihn.2 (g.getNode i).children _ j h with h | ⟨c, hc, hr⟩
        · rw [nodeKeys_insert] at h
          rcases List.mem_append.mp h with h | h
          · exact Or.inl h
          · simp at h
            subst h
            exact Or.inr (Reach.refl j)
        · exact Or.inr (Reach_trans (Reach.step (Reach.refl i) hc) hr)
      · rw [allocateNode_succ_hit g n s i v hlook] at h
        exact Or.inl h
    refine ⟨hnode, ?_⟩
    intro cs
    induction cs with
    | nil =>
      intro s j h
      rw [allocateNodeList_nil] at h
      exact Or.inl h
    | cons c rest ih =>
      intro s j h
      rw [allocateNodeList_cons] at h
      rcases ih _ j h with h | ⟨c', hc', hr⟩
      · rcases hnode s c j h with h | hr
        · exact Or.inl h
        · exact Or.inr ⟨c, List.mem_cons_self c rest, hr⟩
      · exact Or.inr ⟨c', List.mem_cons_of_mem c hc', hr⟩

/-! #### Counting remapped valid ids -/

theorem validCard_le (g : GltfModel) (s : AllocState)
    (hnodup : (s.nodeIndexRemapping.map Prod.fst).Nodup) :
    validCard g s ≤ g.nodes.length := by
  unfold validCard
  set l := (nodeKeys s).filter (fun k => decide (validId g k)) with hl
  have hlnodup : l.Nodup := List.Nodup.filter _ hnodup
  have hvalid : ∀ k ∈ l, validId g k := by
    intro k hk
    rw [hl] at hk
    exact of_decide_eq_true (List.mem_filter.mp hk).2
  have hmapnodup : (l.map Int.toNat).Nodup := by
    refine List.Nodup.map_on ?_ hlnodup
    intro x hx y hy hxy
    have hx0 := (hvalid x hx).1
    have hy0 := (hvalid y hy).1
    omega
  have hsub : (l.map Int.toNat).toFinset ⊆ Finset.range g.nodes.length := by
    intro a ha
    rw [List.mem_toFinset] at ha
    obtain ⟨k, hk, rfl⟩ := List.mem_map.mp ha
    have h1 := (hvalid k hk).1
    have h2 := (hvalid k hk).2
    rw [Finset.mem_range]
    omega
  have hcard := Finset.card_le_card hsub
  rw [Finset.card_range, List.toFinset_card_of_nodup hmapnodup, List.length_map] at hcard
  exact hcard

theorem validCard_insert (g : GltfModel) (s : AllocState) (i : Int) :
    validCard g { s with nodeIndexRemapping := s.nodeIndexRemapping ++ [(i, s.linearNodes)],
                         linearNodes := s.linearNodes + 1 }
      = validCard g s + (if validId g i then 1 else 0) := by
  unfold validCard
  rw [nodeKeys_insert, List.filter_append, List.length_append]
  by_cases h : validId g i
  · simp [h]
  · simp [h]

/-! #### Completeness: the allocation visits everything reachable, children included -/

theorem alloc_complete (g : GltfModel) : ∀ fuel : Nat,
    (∀ (s : AllocState) (i : Int), SeqInv s →
        g.nodes.length + 1 ≤ fuel + validCard g s →
        i ∈ nodeKeys (allocateNode g fuel s i)
        ∧ (∀ j, j ∈ nodeKeys (allocateNode g fuel s i) → j ∉ nodeKeys s → validId g j →
            ∀ c ∈ (g.getNode j).children, c ∈ nodeKeys (allocateNode g fuel s i)))
    ∧ (∀ (cs : List Int) (s : AllocState), SeqInv s →
        g.nodes.length + 1 ≤ fuel + validCard g s →
        (∀ c ∈ cs, c ∈ nodeKeys (allocateNodeList g fuel s cs))
        ∧ (∀ j, j ∈ nodeKeys (allocateNodeList g fuel s cs) → j ∉ nodeKeys s →
            validId g j → ∀ c ∈ (g.getNode j).children,
              c ∈ nodeKeys (allocateNodeList g fuel s cs))) := by
  intro fuel
  induction fuel with
  | zero =>
    constructor
    · intro s i hinv hfuel
      exact absurd hfuel (by have := validCard_le g s hinv.1; omega)
    · intro cs s hinv hfuel
      exact absurd hfuel (by have := validCard_le g s hinv.1; omega)
  | succ n ihn =>
    have hnode : ∀ (s : AllocState) (i : Int), SeqInv s →
        g.nodes.length + 1 ≤ (n + 1) + validCard g s →
        i ∈ nodeKeys (allocateNode g (n + 1) s i)
        ∧ (∀ j, j ∈ nodeKeys (allocateNode g (n + 1) s i) → j ∉ nodeKeys s →
            validId g j → ∀ c ∈ (g.getNode j).children,
              c ∈ nodeKeys (allocateNode g (n + 1) s i)) := by
      intro s i hinv hfuel
      rcases hlook : alookup s.nodeIndexRemapping i with _ | v
      · rw [allocateNode_succ_miss g n s i hlook]
        have hinv1 : SeqInv { s with
            nodeIndexRemapping := s.nodeIndexRemapping ++ [(i, s.linearNodes)],
            linearNodes := s.linearNodes + 1 } := SeqInv_nodeInsert s i hinv hlook
        have hkeys1 : nodeKeys { s with
            nodeIndexRemapping := s.nodeIndexRemapping ++ [(i, s.linearNodes)],
            linearNodes := s.linearNodes + 1 } = nodeKeys s ++ [i] :=
          nodeKeys_insert s i s.linearNodes
        have hkeysF : ∀ s2 : AllocState, nodeKeys (allocMeshCamera g i s2) = nodeKeys s2 := by
          intro s2
          unfold nodeKeys
          rw [(allocMeshCamera_nodeFields g i s2).1]
        by_cases hvalid : validId g i
        · have hcard : validCard g { s with
              nodeIndexRemapping := s.nodeIndexRemapping ++ [(i, s.linearNodes)],
              linearNodes := s.linearNodes + 1 } = validCard g s + 1 := by
            rw [validCard_insert, if_pos hvalid]
          have hfuel1 : g.nodes.length + 1 ≤ n + validCard g { s with
              nodeIndexRemapping := s.nodeIndexRemapping ++ [(i, s.linearNodes)],
              linearNodes := s.linearNodes + 1 } := by
            rw [hcard]
            omega
          obtain ⟨hch, hclosed⟩ := ihn.2 (g.getNode i).children _ hinv1 hfuel1
          have hiS2 : i ∈ nodeKeys (allocateNodeList g n { s with
              nodeIndexRemapping := s.nodeIndexRemapping ++ [(i, s.linearNodes)],
              linearNodes := s.linearNodes + 1 } (g.getNode i).children) := by
            refine allocateNodeList_keys_mono g n _ _ ?_
            rw [hkeys1]
            exact List.mem_append_right _ (by simp)
          constructor
          · rw [hkeysF]
            exact hiS2
          · intro j hj hnj hvj c hc
            rw [hkeysF] at hj ⊢
            by_cases hj1 : j ∈ nodeKeys { s with
                nodeIndexRemapping := s.nodeIndexRemapping ++ [(i, s.linearNodes)],
                linearNodes := s.linearNodes + 1 }
            · rw [hkeys1] at hj1
              rcases List.mem_append.mp hj1 with h | h
              · exact absurd h hnj
              · simp at h
                subst h
                exact hch c hc
            · exact hclosed j hj hj1 hvj c hc
        · have hchempty : (g.getNode i).children = [] := by
            rw [getNode_invalid g i hvalid]
          constructor
          · rw [hkeysF, hchempty, allocateNodeList_nil, hkeys1]
            exact List.mem_append_right _ (by simp)
          · intro j hj hnj hvj c hc
            rw [hkeysF, hchempty, allocateNodeList_nil, hkeys1] at hj
            rcases List.mem_append.mp hj with h | h
            · exact absurd h hnj
            · simp at h
              subst h
              exact absurd hvj hvalid
      · rw [allocateNode_succ_hit g n s i v hlook]
        have hmem : i ∈ nodeKeys s := by
          unfold nodeKeys
          rw [← alookup_isSome_iff, hlook]
          rfl
        exact ⟨hmem, fun j hj hnj _ _ _ => absurd hj hnj⟩
    refine ⟨hnode, ?_⟩
    intro cs
    induction cs with
    | nil =>
      intro s hinv hfuel
      constructor
      · intro c hc
        exact absurd hc (List.not_mem_nil c)
      · intro j hj hnj hvj c hc
        rw [allocateNodeList_nil] at hj
        exact absurd hj hnj
    | cons c rest ihl =>
      intro s hinv hfuel
      rw [allocateNodeList_cons]
      have hinv' : SeqInv (allocateNode g (n + 1) s c) := (alloc_SeqInv g (n + 1)).1 s c hinv
      have hfuel' : g.nodes.length + 1 ≤ (n + 1) + validCard g (allocateNode g (n + 1) s c) := by
        have := allocateNode_validCard_mono g (n + 1) s c
        omega
      obtain ⟨hcs, hclosed2⟩ := ihl (allocateNode g (n + 1) s c) hinv' hfuel'
      obtain ⟨hcmem, hclosed1⟩ := hnode s c hinv hfuel
      constructor
      · intro c' hc'
        rcases List.mem_cons.mp hc' with rfl | hc'
        · exact allocateNodeList_keys_mono g (n + 1) rest _ hcmem
        · exact hcs c' hc'
      · intro j hj hnj hvj ch hch
        by_cases hj' : j ∈ nodeKeys (allocateNode g (n + 1) s c)
        · exact allocateNodeList_keys_mono g (n + 1) rest _
            (hclosed1 j hj' hnj hvj ch hch)
        · exact hclosed2 j hj hj' hvj ch hch

/-- Distinct keys with values 0,1,2,… make the remapping injective. -/
theorem remap_inj (m : List (Int × Nat)) (_hnodup : (m.map Prod.fst).Nodup)
    (hseq : m.map Prod.snd = List.range m.length) {j1 j2 : Int} {v : Nat}
    (h1 : alookup m j1 = some v) (h2 : alookup m j2 = some v) : j1 = j2 := by
  have hm1 := alookup_mem h1
  have hm2 := alookup_mem h2
  have hsnd : (m.map Prod.snd).Nodup := by
    rw [hseq]
    exact List.nodup_range _
  have heq : ((j1, v) : Int × Nat) = (j2, v) :=
    List.inj_on_of_nodup_map hsnd hm1 hm2 rfl
  exact congrArg Prod.fst heq

/-- C1: over a well-formed scene with valid requested roots and enough fuel (one more
than the node count always suffices), after the allocation pass every node reachable
from the roots via children links has an entry in the node index remapping, the
remapping keys are distinct (exactly one entry per id), every remapped id is reachable
(one arena slot per distinct reachable node), no two distinct source ids share a
flattened index, the flattened indices are exactly 0,1,2,… in allocation order, and the
node arena has exactly one slot per remapping entry. -/
theorem C1_allocPass_remapping (g : GltfModel) (roots : List Int) (fuel : Nat)
    (hwf : WellFormed g) (hroots : ∀ r ∈ roots, validId g r)
    (hfuel : g.nodes.length + 1 ≤ fuel) :
    (∀ j, (∃ r ∈ roots, Reach g r j) →
        (alookup (allocPass g fuel roots).nodeIndexRemapping j).isSome = true)
    ∧ ((allocPass g fuel roots).nodeIndexRemapping.map Prod.fst).Nodup
    ∧ (∀ j, (alookup (allocPass g fuel roots).nodeIndexRemapping j).isSome = true →
        ∃ r ∈ roots, Reach g r j)
    ∧ (∀ j1 j2 v, alookup (allocPass g fuel roots).nodeIndexRemapping j1 = some v →
        alookup (allocPass g fuel roots).nodeIndexRemapping j2 = some v → j1 = j2)
    ∧ (allocPass g fuel roots).nodeIndexRemapping.map Prod.snd
        = List.range (allocPass g fuel roots).nodeIndexRemapping.length
    ∧ (allocPass g fuel roots).linearNodes
        = (allocPass g fuel roots).nodeIndexRemapping.length := by
  have hinv0 : SeqInv ({} : AllocState) := by
    refine ⟨?_, ?_, ?_, ?_, ?_, ?_, ?_, ?_, ?_⟩ <;> simp
  have hinvF : SeqInv (allocPass g fuel roots) := (alloc_SeqInv g fuel).2 roots {} hinv0
  have hfuel0 : g.nodes.length + 1 ≤ fuel + validCard g ({} : AllocState) := by
    have hcard0 : validCard g ({} : AllocState) = 0 := rfl
    omega
  obtain ⟨hroots_mem, hclosed⟩ := (alloc_complete g fuel).2 roots {} hinv0 hfuel0
  refine ⟨?_, hinvF.1, ?_, ?_, hinvF.2.1, hinvF.2.2.1⟩
  · intro j hreach
    obtain ⟨r, hr, hreach⟩ := hreach
    rw [alookup_isSome_iff]
    induction hreach with
    | refl => exact hroots_mem r hr
    | step hpath hc ih =>
      have hvm := Reach_valid hwf (hroots r hr) hpath
      exact hclosed _ ih (List.not_mem_nil _) hvm _ hc
  · intro j hj
    rw [alookup_isSome_iff] at hj
    rcases (alloc_sound g fuel).2 roots {} j hj with h | h
    · exact absurd h (List.not_mem_nil j)
    · exact h
  · intro j1 j2 v h1 h2
    exact remap_inj _ hinvF.1 hinvF.2.1 h1 h2

/-- A two-node scene: node 0 has one child, node 1. -/
def exampleScene : GltfModel :=
  { nodes := [{ children := [1] }, {}] }

theorem C1_allocPass_remapping_witness :
    (∀ j, (∃ r ∈ [(0 : Int)], Reach exampleScene r j) →
        (alookup (allocPass exampleScene 3 [0]).nodeIndexRemapping j).isSome = true)
    ∧ ((allocPass exampleScene 3 [0]).nodeIndexRemapping.map Prod.fst).Nodup
    ∧ (∀ j, (alookup (allocPass exampleScene 3 [0]).nodeIndexRemapping j).isSome = true →
        ∃ r ∈ [(0 : Int)], Reach exampleScene r j)
    ∧ (∀ j1 j2 v, alookup (allocPass exampleScene 3 [0]).nodeIndexRemapping j1 = some v →
        alookup (allocPass exampleScene 3 [0]).nodeIndexRemapping j2 = some v → j1 = j2)
    ∧ (allocPass exampleScene 3 [0]).nodeIndexRemapping.map Prod.snd
        = List.range (allocPass exampleScene 3 [0]).nodeIndexRemapping.length
    ∧ (allocPass exampleScene 3 [0]).linearNodes
        = (allocPass exampleScene 3 [0]).nodeIndexRemapping.length :=
  C1_allocPass_remapping exampleScene [0] 3 (by decide) (by decide) (by decide)

/-! ### C2 — vertex conversion memoization -/

/-- Invariant of the vertex deduplication memo during the primitive loop: the vertex
buffer size list matches the declared buffers, every memo entry has one offset per
buffer, every logged conversion key is (and stays) in the memo, no key was converted
twice, and every processed primitive's recorded vertex start is what its (stable) memo
entry dictates. -/
def MemoInv (strides : List Nat) (s : BuildState) : Prop :=
  s.vertexDataSizes.length = strides.length
  ∧ (∀ e ∈ s.convertedBuffers, e.2.length = strides.length)
  ∧ (∀ k ∈ s.conversionLog, (alookup s.convertedBuffers k).isSome = true)
  ∧ s.conversionLog.Nodup
  ∧ (∀ e ∈ s.primLog, ∃ offs, alookup s.convertedBuffers e.1 = some offs
      ∧ e.2 = offs.getD 0 0 / strides.getD 0 0)

/-- Field evaluation of one primitive step when the key is already memoized with a
nonempty offset list (the skip branch of LoadMesh lines 275-279). -/
theorem processPrimitive_fields_hit (layout : ModelLayout) (g : GltfModel)
    (s : BuildState) (prim : GltfPrimitive) (offs : List Nat)
    (hlook : alookup s.convertedBuffers (buildPrimKey layout.vertexAttributeNames prim)
        = some offs)
    (hne : offs.isEmpty = false) :
    (processPrimitive layout g s prim).1.convertedBuffers = s.convertedBuffers
    ∧ (processPrimitive layout g s prim).1.conversionLog = s.conversionLog
    ∧ (processPrimitive layout g s prim).1.vertexDataSizes = s.vertexDataSizes
    ∧ (processPrimitive layout g s prim).1.primLog
        = s.primLog ++ [(buildPrimKey layout.vertexAttributeNames prim,
            offs.getD 0 0 / layout.bufferStrides.getD 0 0)] := by
  simp only [processPrimitive, hlook, hne]
  refine ⟨rfl, rfl, rfl, rfl⟩

/-- Field evaluation of one primitive step when the key is not memoized yet (the
conversion branch): the offsets recorded are the current buffer sizes, the key is
appended to the memo and the conversion log. -/
theorem processPrimitive_fields_miss (layout : ModelLayout) (g : GltfModel)
    (s : BuildState) (prim : GltfPrimitive)
    (hlook : alookup s.convertedBuffers (buildPrimKey layout.vertexAttributeNames prim)
        = none) :
    (processPrimitive layout g s prim).1.convertedBuffers
        = s.convertedBuffers
          ++ [(buildPrimKey layout.vertexAttributeNames prim, s.vertexDataSizes)]
    ∧ (processPrimitive layout g s prim).1.conversionLog
        = s.conversionLog ++ [buildPrimKey layout.vertexAttributeNames prim]
    ∧ (processPrimitive layout g s prim).1.vertexDataSizes
        = (s.vertexDataSizes.zip layout.bufferStrides).map
            (fun p => p.1
              + (g.getAccessor ((alookup prim.attributes "POSITION").getD (-1))).count * p.2)
    ∧ (processPrimitive layout g s prim).1.primLog
        = s.primLog ++ [(buildPrimKey layout.vertexAttributeNames prim,
            s.vertexDataSizes.getD 0 0 / layout.bufferStrides.getD 0 0)] := by
  refine ⟨?_, ?_, ?_, ?_⟩ <;>
    simp only [processPrimitive, hlook, convertVertexData, memoStore]

/-- One primitive step preserves the memo invariant, and every existing memo entry
survives unchanged. -/
theorem processPrimitive_MemoInv (layout : ModelLayout) (g : GltfModel)
    (hs : layout.bufferStrides ≠ []) (s : BuildState) (prim : GltfPrimitive)
    (hinv : MemoInv layout.bufferStrides s) :
    MemoInv layout.bufferStrides (processPrimitive layout g s prim).1
    ∧ (∀ k v, alookup s.convertedBuffers k = some v →
        alookup (processPrimitive layout g s prim).1.convertedBuffers k = some v) := by
  obtain ⟨hlen, hoffs, hlog, hnodup, hprim⟩ := hinv
  have hstrpos : layout.bufferStrides.length ≠ 0 := by
    intro h0
    exact hs (List.length_eq_zero.mp h0)
  rcases hlook : alookup s.convertedBuffers
      (buildPrimKey layout.vertexAttributeNames prim) with _ | offs
  · -- the key is new: conversion runs and appends to the memo
    obtain ⟨hcb, hcl, hvs, hpl⟩ := processPrimitive_fields_miss layout g s prim hlook
    have hkeyNotInLog : buildPrimKey layout.vertexAttributeNames prim ∉ s.conversionLog := by
      intro hmem
      have := hlog _ hmem
      rw [hlook] at this
      simp at this
    have hstable : ∀ k v, alookup s.convertedBuffers k = some v →
        alookup (processPrimitive layout g s prim).1.convertedBuffers k = some v := by
      intro k v hv
      rw [hcb]
      exact alookup_append_some _ hv
    have hself : alookup (processPrimitive layout g s prim).1.convertedBuffers
        (buildPrimKey layout.vertexAttributeNames prim) = some s.vertexDataSizes := by
      rw [hcb, alookup_append_none _ hlook]
      simp [alookup]
    refine ⟨⟨?_, ?_, ?_, ?_, ?_⟩, hstable⟩
    · rw [hvs]
      simp [List.length_zip, hlen]
    · intro e he
      rw [hcb] at he
      rcases List.mem_append.mp he with he | he
      · exact hoffs e he
      · simp at he
        subst he
        exact hlen
    · intro k hk
      rw [hcl] at hk
      rcases List.mem_append.mp hk with hk | hk
      · rcases Option.isSome_iff_exists.mp (hlog k hk) with ⟨v, hv⟩
        rw [hstable k v hv]
        rfl
      · simp at hk
        rw [hk, hself]
        rfl
    · rw [hcl]
      simp [List.nodup_append, hnodup, hkeyNotInLog]
    · intro e he
      rw [hpl] at he
      rcases List.mem_append.mp he with he | he
      · obtain ⟨o, ho, hv⟩ := hprim e he
        exact ⟨o, hstable _ _ ho, hv⟩
      · simp at he
        subst he
        exact ⟨s.vertexDataSizes, hself, by simp [List.getD_eq_getElem?_getD]⟩
  · -- the key is memoized; its offset list is nonempty by the invariant, so the
    -- conversion is skipped
    have hne : offs.isEmpty = false := by
      have hlenoffs : offs.length = layout.bufferStrides.length :=
        hoffs _ (alookup_mem hlook)
      rcases offs with _ | ⟨o, os⟩
      · exact absurd hlenoffs.symm hstrpos
      · rfl
    obtain ⟨hcb, hcl, hvs, hpl⟩ := processPrimitive_fields_hit layout g s prim offs hlook hne
    have hstable : ∀ k v, alookup s.convertedBuffers k = some v →
        alookup (processPrimitive layout g s prim).1.convertedBuffers k = some v := by
      intro k v hv
      rw [hcb]
      exact hv
    refine ⟨⟨?_, ?_, ?_, ?_, ?_⟩, hstable⟩
    · rw [hvs]; exact hlen
    · rw [hcb]; exact hoffs
    · intro k hk
      rw [hcl] at hk
      rw [hcb]
      exact hlog k hk
    · rw [hcl]; exact hnodup
    · intro e he
      rw [hpl] at he
      rcases List.mem_append.mp he with he | he
      · obtain ⟨o, ho, hv⟩ := hprim e he
        exact ⟨o, hstable _ _ ho, hv⟩
      · simp at he
        subst he
        refine ⟨offs, ?_, by simp [List.getD_eq_getElem?_getD]⟩
        rw [hcb]
        exact hlook

/-- The whole primitive loop preserves the memo invariant. -/
theorem processPrimList_MemoInv (layout : ModelLayout) (g : GltfModel)
    (hs : layout.bufferStrides ≠ []) (prims : List GltfPrimitive) : ∀ s : BuildState,
    MemoInv layout.bufferStrides s →
    MemoInv layout.bufferStrides (processPrimList layout g s prims).1 := by
  induction prims with
  | nil => intro s hinv; exact hinv
  | cons p rest ih =>
    intro s hinv
    simp only [processPrimList]
    exact ih _ (processPrimitive_MemoInv layout g hs s p hinv).1

/-- C2: starting from the post-allocation builder state, across any primitive sequence
(the concatenation of the primitive loops of all loaded meshes) the vertex conversion
runs at most once per deduplication key, and any two primitives with identical keys
record the same vertex-start offset. -/
theorem C2_vertex_dedup (layout : ModelLayout) (g : GltfModel)
    (prims : List GltfPrimitive) (meshRemap : List (Int × Nat)) (numMeshes : Nat)
    (hs : layout.bufferStrides ≠ []) :
    (processPrimList layout g (initBuildState layout meshRemap numMeshes)
        prims).1.conversionLog.Nodup
    ∧ (∀ e1 ∈ (processPrimList layout g (initBuildState layout meshRemap numMeshes)
          prims).1.primLog,
       ∀ e2 ∈ (processPrimList layout g (initBuildState layout meshRemap numMeshes)
          prims).1.primLog,
       e1.1 = e2.1 → e1.2 = e2.2) := by
  have hinit : MemoInv layout.bufferStrides (initBuildState layout meshRemap numMeshes) := by
    refine ⟨?_, ?_, ?_, ?_, ?_⟩ <;> simp [initBuildState, alookup]
  have hfin := processPrimList_MemoInv layout g hs prims _ hinit
  obtain ⟨_, _, _, hnodup, hprim⟩ := hfin
  refine ⟨hnodup, ?_⟩
  intro e1 he1 e2 he2 hkeys
  obtain ⟨o1, ho1, hv1⟩ := hprim e1 he1
  obtain ⟨o2, ho2, hv2⟩ := hprim e2 he2
  rw [hkeys] at ho1
  rw [ho1] at ho2
  obtain rfl : o1 = o2 := (Option.some.injEq .. |>.mp ho2)
  rw [hv1, hv2]

theorem C2_vertex_dedup_witness :
    ((processPrimList { vertexAttributeNames := ["POSITION"], bufferStrides := [12] } {}
        (initBuildState { vertexAttributeNames := ["POSITION"], bufferStrides := [12] }
          [] 0)
        [{ attributes := [("POSITION", 0)] }, { attributes := [("POSITION", 0)] }]).1.conversionLog.Nodup
    ∧ (∀ e1 ∈ (processPrimList { vertexAttributeNames := ["POSITION"], bufferStrides := [12] } {}
          (initBuildState { vertexAttributeNames := ["POSITION"], bufferStrides := [12] }
            [] 0)
          [{ attributes := [("POSITION", 0)] }, { attributes := [("POSITION", 0)] }]).1.primLog,
       ∀ e2 ∈ (processPrimList { vertexAttributeNames := ["POSITION"], bufferStrides := [12] } {}
          (initBuildState { vertexAttributeNames := ["POSITION"], bufferStrides := [12] }
            [] 0)
          [{ attributes := [("POSITION", 0)] }, { attributes := [("POSITION", 0)] }]).1.primLog,
       e1.1 = e2.1 → e1.2 = e2.2)) :=
  C2_vertex_dedup { vertexAttributeNames := ["POSITION"], bufferStrides := [12] } {}
    [{ attributes := [("POSITION", 0)] }, { attributes := [("POSITION", 0)] }] [] 0
    (by decide)

/-! ### C5 — shared meshes are loaded once -/

/-- The primitive loop never touches the mesh remapping, the loaded-mesh set or the
mesh arena (it only grows vertex/index data and the memo). -/
theorem processPrimitive_meshFields (layout : ModelLayout) (g : GltfModel)
    (s : BuildState) (prim : GltfPrimitive) :
    (processPrimitive layout g s prim).1.meshIndexRemapping = s.meshIndexRemapping
    ∧ (processPrimitive layout g s prim).1.loadedMeshes = s.loadedMeshes
    ∧ (processPrimitive layout g s prim).1.meshes = s.meshes := by
  simp only [processPrimitive]
  split
  · split <;> simp
  · simp

theorem processPrimList_meshFields (layout : ModelLayout) (g : GltfModel)
    (prims : List GltfPrimitive) : ∀ s : BuildState,
    (processPrimList layout g s prims).1.meshIndexRemapping = s.meshIndexRemapping
    ∧ (processPrimList layout g s prims).1.loadedMeshes = s.loadedMeshes
    ∧ (processPrimList layout g s prims).1.meshes = s.meshes := by
  induction prims with
  | nil => intro s; exact ⟨rfl, rfl, rfl⟩
  | cons p rest ih =>
    intro s
    have h1 := processPrimitive_meshFields layout g s p
    have h2 := ih (processPrimitive layout g s p).1
    simp only [processPrimList]
    exact ⟨h2.1.trans h1.1, h2.2.1.trans h1.2.1, h2.2.2.trans h1.2.2⟩

/-- C5: when LoadMesh has returned a mesh slot for a source mesh id, calling it again
with the same id (the shared-mesh case: two nodes referencing one mesh) returns the
very same slot and changes no model state at all. -/
theorem C5_loadMesh_shared (layout : ModelLayout) (g : GltfModel) (s : BuildState)
    (idx : Int) (m : Nat) (s1 : BuildState)
    (h : loadMesh layout g s idx = (s1, some m)) :
    loadMesh layout g s1 idx = (s1, some m) := by
  by_cases hneg : idx < 0
  · simp [loadMesh, hneg] at h
  rcases hl : alookup s.meshIndexRemapping idx with _ | m0
  · simp [loadMesh, hneg, hl] at h
  by_cases hld : m0 ∈ s.loadedMeshes
  · have heval : loadMesh layout g s idx = (s, some m0) := by
      simp [loadMesh, hneg, hl, hld]
    rw [heval] at h
    obtain ⟨rfl, hm⟩ := Prod.mk.injEq .. |>.mp h
    obtain rfl := Option.some.injEq .. |>.mp hm
    exact heval
  · have heval : loadMesh layout g s idx
        = (let s2 : BuildState := { s with loadedMeshes := s.loadedMeshes ++ [m0] }
           let gltfMesh := g.getMesh idx
           let r := processPrimList layout g s2 gltfMesh.primitives
           let oldMesh := r.1.meshes.getD m0 {}
           let newMesh : Mesh := { name := gltfMesh.name, primitives := r.2,
                                   BB := computeMeshBB oldMesh.BB r.2 }
           ({ r.1 with meshes := r.1.meshes.set m0 newMesh }, some m0)) := by
      simp [loadMesh, hneg, hl, hld]
    rw [heval] at h
    obtain ⟨hs1, hm⟩ := Prod.mk.injEq .. |>.mp h
    obtain rfl : m0 = m := Option.some.injEq .. |>.mp hm
    have hfields := processPrimList_meshFields layout g (g.getMesh idx).primitives
      { s with loadedMeshes := s.loadedMeshes ++ [m0] }
    have hremap : s1.meshIndexRemapping = s.meshIndexRemapping := by
      rw [← hs1]
      exact hfields.1
    have hmem : m0 ∈ s1.loadedMeshes := by
      rw [← hs1]
      have hload : (processPrimList layout g
          { s with loadedMeshes := s.loadedMeshes ++ [m0] }
          (g.getMesh idx).primitives).1.loadedMeshes = s.loadedMeshes ++ [m0] :=
        hfields.2.1
      simp [hload]
    have hl1 : alookup s1.meshIndexRemapping idx = some m0 := by rw [hremap]; exact hl
    simp [loadMesh, hneg, hl1, hmem]

theorem C5_loadMesh_shared_witness :
    loadMesh {} { meshes := [{ name := "m" }] }
        ((loadMesh {} { meshes := [{ name := "m" }] }
          (initBuildState {} [((0 : Int), 0)] 1) 0).1) 0
      = ((loadMesh {} { meshes := [{ name := "m" }] }
          (initBuildState {} [((0 : Int), 0)] 1) 0).1, some 0) :=
  C5_loadMesh_shared {} { meshes := [{ name := "m" }] }
    (initBuildState {} [((0 : Int), 0)] 1) 0 0
    ((loadMesh {} { meshes := [{ name := "m" }] }
      (initBuildState {} [((0 : Int), 0)] 1) 0).1) rfl

/-! ### C6 — the skin/animation pass is a guarded no-op -/

/-- C6: when no declared vertex attribute name starts with WEIGHTS or JOINTS,
LoadAnimationAndSkin returns false and the entire skin/animation state — Skins,
Animations, the nodes' skin pointers and skin transform slots, and the skin transform
count — is left unchanged. -/
theorem C6_skip_animation (g : GltfModel) (attribNames : List String)
    (remap : List (Int × Nat)) (nodeSkinIds : List Int) (startInit endInit : Rat)
    (s : SkinAnimState)
    (h : ∀ n ∈ attribNames, "WEIGHTS".data.isPrefixOf n.data = false
        ∧ "JOINTS".data.isPrefixOf n.data = false) :
    loadAnimationAndSkin g attribNames remap nodeSkinIds startInit endInit s
      = (false, s) := by
  have hu : usesAnimation attribNames = false := by
    unfold usesAnimation
    rw [List.any_eq_false]
    intro n hn
    simp [(h n hn).1, (h n hn).2]
  simp [loadAnimationAndSkin, hu]

theorem C6_skip_animation_witness :
    loadAnimationAndSkin {} ["POSITION", "NORMAL", "TEXCOORD_0"] [] [] 0 0 {}
      = (false, ({} : SkinAnimState)) :=
  C6_skip_animation {} ["POSITION", "NORMAL", "TEXCOORD_0"] [] [] 0 0 {} (by decide)

/-! ### C7 — animation channel skipping -/

/-- C7, counterexample: in an animation whose sampler list has length 1, the channel
with sampler index 5 — out of range for that list — is still emitted (only negative
sampler ids are skipped), so an out-of-range sampler index does not cause the channel
to be omitted. -/
theorem C7_out_of_range_sampler_counterexample :
    (loadAnimations
        { animations :=
            [{ samplers := [{}],
               channels := [{ pathType := .translation, samplerId := 5, targetNodeId := 0 }] }] }
        [((0 : Int), 0)] 0 0).map
      (fun a => (a.samplers.length, a.channels))
      = [(1, [{ pathType := .translation, node := 0, samplerIndex := 5 }])]
    ∧ ¬ (5 < 1) := by
  constructor
  · rfl
  · decide

/-- C7, amended: a channel whose path kind is weights, whose sampler index is negative,
whose target node id is negative or whose target node the remapping cannot resolve is
omitted from the built channel list and the build continues; every other channel —
including one whose nonnegative sampler index is out of range for the animation's
sampler list — is emitted with its resolved node and its sampler index. -/
theorem C7_buildChannels_amended (remap : List (Int × Nat)) (ch : GltfAnimChannel)
    (rest : List GltfAnimChannel) :
    ((ch.pathType = .weights ∨ ch.samplerId < 0 ∨ ch.targetNodeId < 0
        ∨ alookup remap ch.targetNodeId = none) →
      buildChannels remap (ch :: rest) = buildChannels remap rest)
    ∧ (∀ n : Nat, ch.pathType ≠ .weights → ¬ ch.samplerId < 0 → ¬ ch.targetNodeId < 0 →
        alookup remap ch.targetNodeId = some n →
        buildChannels remap (ch :: rest)
          = { pathType := ch.pathType, node := n, samplerIndex := ch.samplerId.toNat }
            :: buildChannels remap rest) := by
  constructor
  · rintro (h | h | h | h)
    · simp [buildChannels, h]
    · simp [buildChannels, h]
    · by_cases hw : ch.pathType = .weights
      · simp [buildChannels, hw]
      · by_cases hs : ch.samplerId < 0
        · simp [buildChannels, hw, hs]
        · simp [buildChannels, hw, hs, h]
    · by_cases hw : ch.pathType = .weights
      · simp [buildChannels, hw]
      · by_cases hs : ch.samplerId < 0
        · simp [buildChannels, hw, hs]
        · by_cases ht : ch.targetNodeId < 0
          · simp [buildChannels, hw, hs, ht]
          · simp [buildChannels, hw, hs, ht, h]
  · intro n hw hs ht h
    simp [buildChannels, hw, hs, ht, h]

theorem C7_buildChannels_amended_witness :
    (buildChannels [((0 : Int), 0)]
        ({ pathType := .weights, samplerId := 0, targetNodeId := 0 } :: [])
      = buildChannels [((0 : Int), 0)] []
    ∧ buildChannels [((0 : Int), 0)]
        ({ pathType := .rotation, samplerId := 2, targetNodeId := 0 } :: [])
      = { pathType := PATH_TYPE.rotation, node := 0, samplerIndex := (2 : Int).toNat }
        :: buildChannels [((0 : Int), 0)] []) :=
  ⟨(C7_buildChannels_amended [((0 : Int), 0)]
      { pathType := .weights, samplerId := 0, targetNodeId := 0 } []).1 (Or.inl rfl),
   (C7_buildChannels_amended [((0 : Int), 0)]
      { pathType := .rotation, samplerId := 2, targetNodeId := 0 } []).2 0
      (by decide) (by decide) (by decide) rfl⟩

end GLTFBuilder
